import Mathlib

/-!
Shallow embedding of the `download.js` utility from the
horizontal-mattress-airtable-download repository.

The JavaScript program is sequential and effectful; we embed it as pure
Lean functions over explicit environments:

* the filesystem is an oracle `FS` giving file existence and `statSync`
  results for the image paths checked by the program;
* the image network is an oracle `Net` giving the outcome of each
  `downloadImage` call (success/failure after any internal retries) and
  the byte size of the content a successful download writes;
* the Airtable API is an oracle `Nat → AirtableRequest → ApiResponse`
  indexed by a global call counter, so that consecutive calls with the
  same parameters may receive different responses (needed to model
  rate-limit retries);
* the unbounded recursions of the program (rate-limit retry, pagination)
  are embedded with an explicit fuel parameter; exhausted fuel yields
  `none`, a thrown JavaScript error yields `Except.error`.

Every observable action (API request, cooldown wait, image download
request, JSON file write) is recorded in an event trace so that claims
about "no request is issued" or "exactly one request" can be stated.
-/

namespace MattressDownload

/-- One attachment object inside a mattress record's `images` field, as
returned by the Airtable API (the fields `processImages` reads:
`id`, `url`, `filename`, `size`, `type`). -/
structure ImageAttachment where
  id : String
  url : String
  filename : String
  size : Nat
  type : String
  deriving DecidableEq, Repr

/-- The image descriptor pushed onto `imageData` by `processImages`
(`download.js` lines 201-209). -/
structure ImageDescriptor where
  id : String
  filename : String
  originalFilename : String
  path : String
  url : String
  size : Nat
  type : String
  deriving DecidableEq, Repr

/-- Filesystem oracle: `fs.existsSync` and `fs.statSync(...).size`
(an `Except` error models a thrown stat error). -/
structure FS where
  fileExists : String → Bool
  statSize : String → Except String Nat

/-- Network oracle for `downloadImage` calls made by `processImages`:
`download url filename` is `true` when the call resolves (after any
internal rate-limit retries) and `false` when it rejects;
`downloadedSize url` is the byte size of the file a successful download
leaves on disk. -/
structure Net where
  download : String → String → Bool
  downloadedSize : String → Nat

/-- A call to `downloadImage(image.url, imagePath)`. -/
structure DownloadRequest where
  url : String
  filename : String
  deriving DecidableEq, Repr

/-- `path.join(IMAGES_DIR, recordId, (i+1) + ".jpg")` with
`IMAGES_DIR = "data/images"` (`download.js` lines 158, 165-166). -/
def imageLocalPath (recordId : String) (i : Nat) : String :=
  "data/images/" ++ recordId ++ "/" ++ toString (i + 1) ++ ".jpg"

/-- `path.relative(OUTPUT_DIR, imagePath)` with `OUTPUT_DIR = "data"`
(`download.js` line 167). -/
def imageRelPath (recordId : String) (i : Nat) : String :=
  "images/" ++ recordId ++ "/" ++ toString (i + 1) ++ ".jpg"

/-- `download.js` lines 181-184: the JavaScript code computes
`sizePercentDifference = (|existingSize - image.size| / image.size) * 100`
in floating point and skips the download when it is `< 1`.  When
`image.size` is `0` the quotient is `NaN` (if the difference is also 0)
or `Infinity`, and in both cases the comparison `< 1` is `false`.  For
`image.size > 0` the comparison is, over exact arithmetic, equivalent to
`|existingSize - size| * 100 < size`, which is how we embed it (the
idealisation ignores float rounding in the division). -/
def sizeCloseEnough (existingSize declaredSize : Nat) : Bool :=
  declaredSize != 0 &&
    decide (Int.natAbs ((existingSize : Int) - (declaredSize : Int)) * 100 < declaredSize)

/-- `download.js` lines 169-194: decide whether image `i` must be
downloaded.  Starts from `shouldDownload = true`; when the file exists
and `statSync` succeeds with a size within tolerance the download is
skipped; a stat error is caught and leaves `shouldDownload = true`. -/
def shouldDownloadImage (fs : FS) (imagePath : String) (declaredSize : Nat) : Bool :=
  if fs.fileExists imagePath then
    match fs.statSize imagePath with
    | Except.ok existingSize => !(sizeCloseEnough existingSize declaredSize)
    | Except.error _ => true
  else
    true

/-- The descriptor object pushed for image `i` (`download.js` lines
201-209). -/
def mkImageDescriptor (recordId : String) (i : Nat) (image : ImageAttachment) :
    ImageDescriptor :=
  { id := image.id
    filename := toString (i + 1) ++ ".jpg"
    originalFilename := image.filename
    path := imageRelPath recordId i
    url := image.url
    size := image.size
    type := image.type }

/-- One iteration of the `processImages` loop (`download.js` lines
163-213): returns the `downloadImage` calls issued for this image
(`[]` or a singleton) and `some` descriptor when the iteration pushes
onto `imageData` (`none` when the download failed and the catch block
dropped the image). -/
def processOneImage (fs : FS) (net : Net) (recordId : String) (i : Nat)
    (image : ImageAttachment) : List DownloadRequest × Option ImageDescriptor :=
  let imagePath := imageLocalPath recordId i
  if shouldDownloadImage fs imagePath image.size then
    if net.download image.url imagePath then
      ([⟨image.url, imagePath⟩], some (mkImageDescriptor recordId i image))
    else
      ([⟨image.url, imagePath⟩], none)
  else
    ([], some (mkImageDescriptor recordId i image))

/-- The `processImages` loop, one entry per input image, in order. -/
def processImagesResults (fs : FS) (net : Net) (recordId : String)
    (images : List ImageAttachment) :
    List (List DownloadRequest × Option ImageDescriptor) :=
  images.enum.map fun p => processOneImage fs net recordId p.1 p.2

/-- `processImages(record, recordId)` (`download.js` lines 150-216):
the `downloadImage` calls issued, in order, and the returned
`imageData` array. -/
def processImages (fs : FS) (net : Net) (recordId : String)
    (images : List ImageAttachment) : List DownloadRequest × List ImageDescriptor :=
  let results := processImagesResults fs net recordId images
  (results.flatMap Prod.fst, results.filterMap Prod.snd)

/-- State of the file at an image's local path, as far as the embedding
tracks it: absent, or present with a known byte size, or present with
unknown size (the file exists but `statSync` threw). -/
inductive FileState where
  | absent
  | present (size : Option Nat)
  deriving DecidableEq, Repr

/-- The file state at `imageLocalPath recordId i` before the
`processImages` iteration for image `i` runs. -/
def initialImageState (fs : FS) (recordId : String) (i : Nat) : FileState :=
  if fs.fileExists (imageLocalPath recordId i) then
    match fs.statSize (imageLocalPath recordId i) with
    | Except.ok s => FileState.present (some s)
    | Except.error _ => FileState.present none
  else
    FileState.absent

/-- The file state at `imageLocalPath recordId i` after the
`processImages` iteration for image `i` ran: a successful download
leaves a file of size `net.downloadedSize image.url`; a failed or
skipped download leaves the file as it was (the embedding does not
model partially written files). -/
def finalImageState (fs : FS) (net : Net) (recordId : String) (i : Nat)
    (image : ImageAttachment) : FileState :=
  if shouldDownloadImage fs (imageLocalPath recordId i) image.size then
    if net.download image.url (imageLocalPath recordId i) then
      FileState.present (some (net.downloadedSize image.url))
    else
      initialImageState fs recordId i
  else
    initialImageState fs recordId i

/-- The nullable field map of an Airtable record, restricted to the
fields `download.js` reads; `none` models an absent (JavaScript
`undefined`) field. -/
structure RecordFields where
  photographerName : Option String := none
  locationName : Option String := none
  date : Option String := none
  photographer : Option (List String) := none
  location : Option (List String) := none
  images : Option (List ImageAttachment) := none
  deriving DecidableEq, Repr

/-- A raw record as returned by the Airtable API. -/
structure AirtableRecord where
  id : String
  fields : RecordFields
  deriving DecidableEq, Repr

/-- The request parameters `fetchAirtableRecords` actually sends
(`download.js` lines 66-70): `maxRecords` and `offset` are included
only when truthy, which the constructor `mkAirtableRequest` enforces. -/
structure AirtableRequest where
  table : String
  maxRecords : Option Nat
  offset : Option String
  deriving DecidableEq, Repr

/-- JavaScript truthiness of a nullable number (`0` and `null` are
falsy). -/
def truthyNat : Option Nat → Bool
  | some n => n != 0
  | none => false

/-- JavaScript truthiness of a nullable string (`""` and `null` are
falsy). -/
def truthyStr : Option String → Bool
  | some s => s != ""
  | none => false

/-- The params object built at `download.js` lines 66-70: spread
`...(maxRecords ? { maxRecords } : {})` and likewise for `offset`. -/
def mkAirtableRequest (tableName : String) (maxRecords : Option Nat)
    (offset : Option String) : AirtableRequest :=
  { table := tableName
    maxRecords := if truthyNat maxRecords then maxRecords else none
    offset := if truthyStr offset then offset else none }

/-- Response of one `axios.get` against the Airtable API: a record page
with an optional continuation offset, or an HTTP error status. -/
inductive ApiResponse where
  | ok (records : List AirtableRecord) (offset : Option String)
  | err (status : Nat)
  deriving DecidableEq, Repr

/-- Observable events of `fetchAirtableRecords`: an HTTP request with
its parameters, or the 30-second rate-limit cooldown wait. -/
inductive FetchEvent where
  | request (req : AirtableRequest)
  | cooldown
  deriving DecidableEq, Repr

/-- `fetchAirtableRecords(tableName, maxRecords, offset)` (`download.js`
lines 62-107), embedded with explicit fuel and a call counter `k` (the
API oracle is indexed by the counter so consecutive retries of the same
request can receive different responses).  Returns `none` when the fuel
runs out, otherwise the next counter value, the event trace, and either
the fetched records or the thrown error status.  Pagination
(lines 90-93) recurses only when the response offset is truthy and
`maxRecords` is falsy, passing `null` for `maxRecords`; an HTTP 429
(lines 98-102) waits a cooldown and replays the identical request; any
other error is re-thrown (line 105). -/
def fetchAirtableRecords (api : Nat → AirtableRequest → ApiResponse) :
    Nat → Nat → String → Option Nat → Option String →
    Option (Nat × List FetchEvent × Except Nat (List AirtableRecord))
  | 0, _, _, _, _ => none
  | fuel + 1, k, tableName, maxRecords, offset =>
    let req := mkAirtableRequest tableName maxRecords offset
    match api k req with
    | ApiResponse.ok records respOffset =>
      if truthyStr respOffset && !truthyNat maxRecords then
        match fetchAirtableRecords api fuel (k + 1) tableName none respOffset with
        | some (k2, evs, Except.ok nextRecords) =>
          some (k2, FetchEvent.request req :: evs, Except.ok (records ++ nextRecords))
        | some (k2, evs, Except.error e) =>
          some (k2, FetchEvent.request req :: evs, Except.error e)
        | none => none
      else
        some (k + 1, [FetchEvent.request req], Except.ok records)
    | ApiResponse.err status =>
      if status == 429 then
        match fetchAirtableRecords api fuel (k + 1) tableName maxRecords offset with
        | some (k2, evs, res) =>
          some (k2, FetchEvent.request req :: FetchEvent.cooldown :: evs, res)
        | none => none
      else
        some (k + 1, [FetchEvent.request req], Except.error status)

/-- The spec's description of an unbounded paginated fetch, written
from the spec's words for the refinement claim about pagination: issue
the request at the current offset; while the response carries a
continuation offset, issue a follow-up request with that offset; return
the concatenation of all pages' records in page order, together with
the list of requests issued. -/
def specPaginatedFetch (api : Nat → AirtableRequest → ApiResponse) :
    Nat → Nat → String → Option String →
    Option (Nat × List AirtableRequest × List AirtableRecord)
  | 0, _, _, _ => none
  | fuel + 1, k, tableName, offset =>
    let req : AirtableRequest := { table := tableName, maxRecords := none, offset := offset }
    match api k req with
    | ApiResponse.ok records (some nextOffset) =>
      match specPaginatedFetch api fuel (k + 1) tableName (some nextOffset) with
      | some (k2, reqs, rest) => some (k2, req :: reqs, records ++ rest)
      | none => none
    | ApiResponse.ok records none => some (k + 1, [req], records)
    | ApiResponse.err _ => none

/-- Response of one `axios` call inside `downloadImage`: HTTP success
with the write stream finishing, HTTP success with a write error, or an
HTTP error status. -/
inductive DlResponse where
  | ok
  | writeErr
  | httpErr (status : Nat)
  deriving DecidableEq, Repr

/-- Failure modes of `downloadImage`: the writer rejected, or a
non-429 HTTP error was re-thrown. -/
inductive DlError where
  | writeError
  | httpError (status : Nat)
  deriving DecidableEq, Repr

/-- Observable events of `downloadImage`: the HTTP request (with the
url and the target filename) or the rate-limit cooldown wait. -/
inductive DlEvent where
  | request (url filename : String)
  | cooldown
  deriving DecidableEq, Repr

/-- `downloadImage(url, filename)` (`download.js` lines 110-147),
embedded over the list of responses the network returns to the
successive attempts (the list doubles as fuel: an empty list means the
unbounded retry recursion was cut off, giving `none`).  A 429 response
waits a cooldown and retries the same url and filename; any other error
propagates. -/
def downloadImage : List DlResponse → String → String →
    Option (List DlEvent × Except DlError Unit)
  | [], _, _ => none
  | resp :: rest, url, filename =>
    match resp with
    | DlResponse.ok => some ([DlEvent.request url filename], Except.ok ())
    | DlResponse.writeErr =>
      some ([DlEvent.request url filename], Except.error DlError.writeError)
    | DlResponse.httpErr status =>
      if status == 429 then
        match downloadImage rest url filename with
        | some (evs, r) =>
          some (DlEvent.request url filename :: DlEvent.cooldown :: evs, r)
        | none => none
      else
        some ([DlEvent.request url filename], Except.error (DlError.httpError status))

/-- A photographer projection `{id, name}` (`download.js` lines
225-229); `name` is `record.fields.photographerName`, possibly
undefined. -/
structure Photographer where
  id : String
  name : Option String
  deriving DecidableEq, Repr

/-- A location projection `{id, name}` (`download.js` lines 247-251). -/
structure Location where
  id : String
  name : Option String
  deriving DecidableEq, Repr

/-- A resolved reference: either the full looked-up object (the spread
copy `{...photographer}`) or the bare-id stub `{id}`. -/
inductive Resolved (α : Type) where
  | full (value : α)
  | stub (id : String)
  deriving DecidableEq, Repr

/-- Photographer reference resolution (`download.js` lines 281-286):
map each id through `photographers.find(p => p.id === id)`, falling
back to a `{id}` stub. -/
def resolvePhotographers (photographers : List Photographer) (ids : List String) :
    List (Resolved Photographer) :=
  ids.map fun id =>
    match photographers.find? (fun p => p.id == id) with
    | some p => Resolved.full p
    | none => Resolved.stub id

/-- Location reference resolution (`download.js` lines 289-292):
`record.fields.location ? record.fields.location[0] : null`, then
`locationId ? (locations.find(...) || {id: locationId}) : null`.  Both
truthiness tests are embedded: an absent field, an empty array, and an
empty-string first id all yield `none`. -/
def resolveLocation (locations : List Location) (fields : RecordFields) :
    Option (Resolved Location) :=
  let locationId : Option String :=
    match fields.location with
    | some l => l.head?
    | none => none
  match locationId with
  | some locId =>
    if locId == "" then
      none
    else
      some (match locations.find? (fun l => l.id == locId) with
            | some l => Resolved.full l
            | none => Resolved.stub locId)
  | none => none

/-- The mattress object built at `download.js` lines 295-301. -/
structure Mattress where
  id : String
  date : Option String
  photographers : List (Resolved Photographer)
  location : Option (Resolved Location)
  images : List ImageDescriptor
  deriving DecidableEq, Repr

/-- Assembly of one mattress record from a raw record and its processed
images (`download.js` lines 280-301). -/
def buildMattress (photographers : List Photographer) (locations : List Location)
    (record : AirtableRecord) (images : List ImageDescriptor) : Mattress :=
  { id := record.id
    date := record.fields.date
    photographers := resolvePhotographers photographers (record.fields.photographer.getD [])
    location := resolveLocation locations record.fields
    images := images }

/-- Typed contents of a JSON file the program writes. -/
inductive FileContent where
  | photographers (ps : List Photographer)
  | locations (ls : List Location)
  | mattresses (ms : List Mattress)
  | combined (allMatresses : List Mattress) (photographer : List Photographer)
      (location : List Location)
  deriving DecidableEq, Repr

/-- The global `data` accumulator `{allMatresses, photographer,
location}` (`download.js` lines 39-43). -/
structure DataStore where
  allMatresses : List Mattress
  photographer : List Photographer
  location : List Location
  deriving DecidableEq, Repr

/-- Observable events of the orchestrator: Airtable API requests and
cooldowns (lifted from `FetchEvent`), `downloadImage` calls, and JSON
file writes with their typed content. -/
inductive MainEvent where
  | apiRequest (req : AirtableRequest)
  | apiCooldown
  | imgRequest (url filename : String)
  | writeJson (file : String) (content : FileContent)
  deriving DecidableEq, Repr

/-- Lift a fetcher event into the orchestrator trace. -/
def liftFetchEvent : FetchEvent → MainEvent
  | FetchEvent.request req => MainEvent.apiRequest req
  | FetchEvent.cooldown => MainEvent.apiCooldown

/-- `path.join` of TABLES_DIR and photographer.json. -/
def photographerJsonPath : String := "data/tables/photographer.json"

/-- `path.join` of TABLES_DIR and location.json. -/
def locationJsonPath : String := "data/tables/location.json"

/-- `path.join` of TABLES_DIR and allMatresses.json. -/
def mattressesJsonPath : String := "data/tables/allMatresses.json"

/-- `path.join` of OUTPUT_DIR and mattresses-data.json. -/
def combinedJsonPath : String := "data/mattresses-data.json"

/-- `fetchPhotographers()` (`download.js` lines 219-238): fetch the
`photographer` table with no `maxRecords` cap (`CONFIG.SAMPLE_SIZE` is
`null`), project each record to `{id, name}`, persist
`photographer.json`, and return the projection.  A fetch error
propagates. -/
def fetchPhotographers (api : Nat → AirtableRequest → ApiResponse) (fuel k : Nat) :
    Option (Nat × List MainEvent × Except Nat (List Photographer)) :=
  match fetchAirtableRecords api fuel k "photographer" none none with
  | some (k2, evs, Except.ok records) =>
    let photographers := records.map fun record =>
      Photographer.mk record.id record.fields.photographerName
    some (k2,
      evs.map liftFetchEvent ++
        [MainEvent.writeJson photographerJsonPath (FileContent.photographers photographers)],
      Except.ok photographers)
  | some (k2, evs, Except.error e) => some (k2, evs.map liftFetchEvent, Except.error e)
  | none => none

/-- `fetchLocations()` (`download.js` lines 241-260), analogous to
`fetchPhotographers`. -/
def fetchLocations (api : Nat → AirtableRequest → ApiResponse) (fuel k : Nat) :
    Option (Nat × List MainEvent × Except Nat (List Location)) :=
  match fetchAirtableRecords api fuel k "location" none none with
  | some (k2, evs, Except.ok records) =>
    let locations := records.map fun record =>
      Location.mk record.id record.fields.locationName
    some (k2,
      evs.map liftFetchEvent ++
        [MainEvent.writeJson locationJsonPath (FileContent.locations locations)],
      Except.ok locations)
  | some (k2, evs, Except.error e) => some (k2, evs.map liftFetchEvent, Except.error e)
  | none => none

/-- `fetchMattresses(photographers, locations)` (`download.js` lines
263-314): fetch the `allMatresses` table, then for each record process
its images and resolve its references, persist `allMatresses.json`, and
return the assembled mattresses.  A fetch error propagates; per-image
failures are handled inside `processImages`. -/
def fetchMattresses (api : Nat → AirtableRequest → ApiResponse) (fs : FS) (net : Net)
    (fuel k : Nat) (photographers : List Photographer) (locations : List Location) :
    Option (Nat × List MainEvent × Except Nat (List Mattress)) :=
  match fetchAirtableRecords api fuel k "allMatresses" none none with
  | some (k2, evs, Except.ok records) =>
    let mattresses := records.map fun record =>
      buildMattress photographers locations record
        (processImages fs net record.id (record.fields.images.getD [])).2
    let imgEvents := records.flatMap fun record =>
      (processImages fs net record.id (record.fields.images.getD [])).1.map
        fun (rq : DownloadRequest) => MainEvent.imgRequest rq.url rq.filename
    some (k2,
      evs.map liftFetchEvent ++ imgEvents ++
        [MainEvent.writeJson mattressesJsonPath (FileContent.mattresses mattresses)],
      Except.ok mattresses)
  | some (k2, evs, Except.error e) => some (k2, evs.map liftFetchEvent, Except.error e)
  | none => none

/-- `download.js` lines 369-375: rebuild an `ImageAttachment` from a
cached image descriptor (`filename` is the descriptor's
`originalFilename`). -/
def descriptorToAttachment (img : ImageDescriptor) : ImageAttachment :=
  { id := img.id
    url := img.url
    filename := img.originalFilename
    size := img.size
    type := img.type }

/-- Environment of one `main()` run: the three oracles, the parsed
contents of the three table JSON files when they exist on disk (`none`
models an absent file; `fs.readJsonSync` is assumed to return the
stored contents), and the fuel bound for each table fetch. -/
structure Env where
  api : Nat → AirtableRequest → ApiResponse
  fs : FS
  net : Net
  photographerFile : Option (List Photographer)
  locationFile : Option (List Location)
  mattressesFile : Option (List Mattress)
  fuel : Nat

/-- `download.js` lines 338-345: load `photographer.json` when it
exists (no events, file contents trusted verbatim), otherwise call
`fetchPhotographers`. -/
def loadOrFetchPhotographers (env : Env) (k : Nat) :
    Option (Nat × List MainEvent × Except Nat (List Photographer)) :=
  match env.photographerFile with
  | some ps => some (k, ([] : List MainEvent), Except.ok ps)
  | none => fetchPhotographers env.api env.fuel k

/-- `download.js` lines 347-354: load `location.json` when it exists,
otherwise call `fetchLocations`. -/
def loadOrFetchLocations (env : Env) (k : Nat) :
    Option (Nat × List MainEvent × Except Nat (List Location)) :=
  match env.locationFile with
  | some ls => some (k, ([] : List MainEvent), Except.ok ls)
  | none => fetchLocations env.api env.fuel k

/-- `download.js` lines 356-407: when `allMatresses.json` exists, load
it and re-run `processImages` over every mattress's recorded
descriptors (lines 367-386), discarding the return value; otherwise
call `fetchMattresses`. -/
def loadOrFetchMattresses (env : Env) (k : Nat) (photographers : List Photographer)
    (locations : List Location) :
    Option (Nat × List MainEvent × Except Nat (List Mattress)) :=
  match env.mattressesFile with
  | some ms =>
    let imgEvents := ms.flatMap fun m =>
      (processImages env.fs env.net m.id (m.images.map descriptorToAttachment)).1.map
        fun (rq : DownloadRequest) => MainEvent.imgRequest rq.url rq.filename
    some (k, imgEvents, Except.ok ms)
  | none =>
    fetchMattresses env.api env.fs env.net env.fuel k photographers locations

/-- `main()` (`download.js` lines 317-435), embedded as the event trace
plus either the final `data` store (the success path, which ends by
unconditionally writing the combined JSON file) or the error caught at
line 431 (in this embedding, errors originate from table fetches).
Returns `none` when a fetch runs out of fuel. -/
def main (env : Env) : Option (List MainEvent × Except Nat DataStore) :=
  match loadOrFetchPhotographers env 0 with
  | none => none
  | some (_, evs1, Except.error e) => some (evs1, Except.error e)
  | some (k1, evs1, Except.ok photographers) =>
    match loadOrFetchLocations env k1 with
    | none => none
    | some (_, evs2, Except.error e) => some (evs1 ++ evs2, Except.error e)
    | some (k2, evs2, Except.ok locations) =>
      match loadOrFetchMattresses env k2 photographers locations with
      | none => none
      | some (_, evs3, Except.error e) => some (evs1 ++ evs2 ++ evs3, Except.error e)
      | some (_, evs3, Except.ok mattresses) =>
        let ds : DataStore := ⟨mattresses, photographers, locations⟩
        some (evs1 ++ evs2 ++ evs3 ++
          [MainEvent.writeJson combinedJsonPath
            (FileContent.combined ds.allMatresses ds.photographer ds.location)],
          Except.ok ds)

/-- The process exit code: `0` when `main` runs to completion, `1` when
the catch block at `download.js` lines 431-434 calls
`process.exit(1)`. -/
def mainExitCode (env : Env) : Option Nat :=
  match main env with
  | some (_, Except.ok _) => some 0
  | some (_, Except.error _) => some 1
  | none => none

/-- Is this event a `writeJson` to the combined output file? -/
def isCombinedWrite : MainEvent → Bool
  | MainEvent.writeJson file _ => file == combinedJsonPath
  | _ => false

/-- Is this event an Airtable API request against table `t`? -/
def isApiRequestFor (t : String) : MainEvent → Bool
  | MainEvent.apiRequest req => req.table == t
  | _ => false

/-- The error component of an `Except` result (used to compare the
control-flow outcome of two runs while ignoring the data they carry). -/
def exceptErrOf : Except Nat (List Mattress) → Option Nat
  | Except.ok _ => none
  | Except.error e => some e

/-! Concrete fixtures used by the witness and counterexample theorems
below.  Each is a closed, fully evaluable input to the definitions
above. -/

/-- A filesystem on which no file exists. -/
def emptyFS : FS := ⟨fun _ => false, fun _ => Except.error "ENOENT"⟩

/-- A network on which every download succeeds with 0 bytes. -/
def happyNet : Net := ⟨fun _ _ => true, fun _ => 0⟩

/-- An API that always errors (never consulted in cached-run fixtures). -/
def unusedApi : Nat → AirtableRequest → ApiResponse := fun _ _ => ApiResponse.err 500

/-- Fixture image for the materializer witnesses: declared size 1005. -/
def wImgA : ImageAttachment := ⟨"attA", "http://img/a", "a.jpg", 1005, "image/jpeg"⟩

/-- Fixture image with declared size 0. -/
def wImgZ : ImageAttachment := ⟨"attZ", "http://img/z", "z.jpg", 0, "image/jpeg"⟩

/-- A filesystem on which every file exists with stat size 1000. -/
def statFS1000 : FS := ⟨fun _ => true, fun _ => Except.ok 1000⟩

/-- Two-page API fixture: the first call returns one record and a
continuation offset, every later call returns one record and no
offset. -/
def wPageApi : Nat → AirtableRequest → ApiResponse := fun k _ =>
  if k == 0 then ApiResponse.ok [⟨"r1", {}⟩] (some "off1")
  else ApiResponse.ok [⟨"r2", {}⟩] none

/-- API fixture answering 429 to the first two calls and an empty page
afterwards. -/
def w429Api : Nat → AirtableRequest → ApiResponse := fun k _ =>
  if k < 2 then ApiResponse.err 429 else ApiResponse.ok [] none

/-- Fixture photographer table and raw mattress record for the
reference-resolution witness. -/
def wPhotographerTable : List Photographer := [⟨"p1", some "Alice"⟩, ⟨"p2", some "Bob"⟩]

/-- Fixture location table. -/
def wLocationTable : List Location := [⟨"l1", some "Bern"⟩]

/-- Fixture raw mattress record: one resolvable and one unresolvable
photographer id, two location ids. -/
def wRawRecord : AirtableRecord :=
  ⟨"m1", { date := some "2021-01-01", photographer := some ["p2", "px"],
           location := some ["l1", "l2"] }⟩

/-- Cached-photographer environment for the cached-tables witness:
photographer.json exists, location.json does not, allMatresses.json
exists (empty). -/
def c6wApi : Nat → AirtableRequest → ApiResponse := fun _ _ =>
  ApiResponse.ok [⟨"loc1", { locationName := some "Bern" }⟩] none

/-- The environment for the cached-tables witness. -/
def c6wEnv : Env :=
  ⟨c6wApi, emptyFS, happyNet, some [⟨"p1", some "Alice"⟩], none, some [], 1⟩

/-- The event trace `main` produces on `c6wEnv`. -/
def c6wEvents : List MainEvent :=
  [MainEvent.apiRequest ⟨"location", none, none⟩,
   MainEvent.writeJson locationJsonPath (FileContent.locations [⟨"loc1", some "Bern"⟩]),
   MainEvent.writeJson combinedJsonPath
     (FileContent.combined [] [⟨"p1", some "Alice"⟩] [⟨"loc1", some "Bern"⟩])]

/-- The data store `main` produces on `c6wEnv`. -/
def c6wStore : DataStore := ⟨[], [⟨"p1", some "Alice"⟩], [⟨"loc1", some "Bern"⟩]⟩

/-- Counterexample fixture descriptor: declared size 100, but the file
on disk has 200 bytes and the re-download fails. -/
def c7xDescriptor : ImageDescriptor :=
  ⟨"att1", "1.jpg", "orig.jpg", "images/rec1/1.jpg", "http://x/img", 100, "image/jpeg"⟩

/-- Counterexample fixture mattress holding `c7xDescriptor`. -/
def c7xMattress : Mattress := ⟨"rec1", none, [], none, [c7xDescriptor]⟩

/-- Counterexample filesystem: the image file exists with 200 bytes. -/
def c7xFS : FS := ⟨fun _ => true, fun _ => Except.ok 200⟩

/-- Counterexample network: every download fails. -/
def c7xNet : Net := ⟨fun _ _ => false, fun _ => 0⟩

/-- Counterexample environment: all three table files are cached, the
mattress cache holds `c7xMattress`. -/
def c7xEnv : Env := ⟨unusedApi, c7xFS, c7xNet, some [], some [], some [c7xMattress], 0⟩

/-- The event trace `main` produces on `c7xEnv`. -/
def c7xEvents : List MainEvent :=
  [MainEvent.imgRequest "http://x/img" "data/images/rec1/1.jpg",
   MainEvent.writeJson combinedJsonPath (FileContent.combined [c7xMattress] [] [])]

/-- The data store `main` produces on `c7xEnv`. -/
def c7xStore : DataStore := ⟨[c7xMattress], [], []⟩

/-- Witness fixture descriptor for the amended invariant: declared
size 100, no file on disk, download succeeds with exactly 100 bytes. -/
def c7wDescriptor : ImageDescriptor :=
  ⟨"attW", "1.jpg", "orig.jpg", "images/recW/1.jpg", "http://img/w", 100, "image/jpeg"⟩

/-- Witness fixture mattress holding `c7wDescriptor`. -/
def c7wMattress : Mattress := ⟨"recW", none, [], none, [c7wDescriptor]⟩

/-- Witness network: downloads succeed and write 100 bytes. -/
def c7wNet : Net := ⟨fun _ _ => true, fun _ => 100⟩

/-- Witness environment for the amended invariant. -/
def c7wEnv : Env := ⟨unusedApi, emptyFS, c7wNet, some [], some [], some [c7wMattress], 0⟩

/-- The data store `main` produces on `c7wEnv`. -/
def c7wStore : DataStore := ⟨[c7wMattress], [], []⟩

/-- Fully-cached environment that succeeds with empty tables. -/
def c8wEnvOk : Env := ⟨unusedApi, emptyFS, happyNet, some [], some [], some [], 0⟩

/-- Environment whose photographer fetch fails with HTTP 500. -/
def c8wEnvErr : Env := ⟨unusedApi, emptyFS, happyNet, none, some [], some [], 1⟩

/-- Cached-mattress environment for the frame-effect witness: the
image file exists with a matching size, so processing skips it. -/
def c10wFS : FS := ⟨fun _ => true, fun _ => Except.ok 100⟩

/-- Witness environment for the frame-effect claim. -/
def c10wEnv : Env := ⟨unusedApi, c10wFS, c7xNet, some [], some [], some [c7wMattress], 0⟩

/-! Helper lemmas. -/

theorem processImagesResults_getElem (fs : FS) (net : Net) (recordId : String)
    (images : List ImageAttachment) (i : Nat) :
    (processImagesResults fs net recordId images)[i]? =
      (images[i]?).map fun image => processOneImage fs net recordId i image := by
  simp only [processImagesResults, List.getElem?_map, List.getElem?_enum]
  cases images[i]? <;> rfl

theorem processOneImage_fst (fs : FS) (net : Net) (recordId : String) (i : Nat)
    (image : ImageAttachment) :
    (processOneImage fs net recordId i image).1 =
      (if shouldDownloadImage fs (imageLocalPath recordId i) image.size then
        [(⟨image.url, imageLocalPath recordId i⟩ : DownloadRequest)]
      else []) := by
  unfold processOneImage
  cases hsd : shouldDownloadImage fs (imageLocalPath recordId i) image.size with
  | false => simp [hsd]
  | true =>
    cases hdl : net.download image.url (imageLocalPath recordId i) <;> simp [hsd, hdl]

theorem processOneImage_snd (fs : FS) (net : Net) (recordId : String) (i : Nat)
    (image : ImageAttachment) :
    (processOneImage fs net recordId i image).2 =
      (if shouldDownloadImage fs (imageLocalPath recordId i) image.size
          && !net.download image.url (imageLocalPath recordId i) then
        none
      else some (mkImageDescriptor recordId i image)) := by
  unfold processOneImage
  cases hsd : shouldDownloadImage fs (imageLocalPath recordId i) image.size with
  | false => simp [hsd]
  | true =>
    cases hdl : net.download image.url (imageLocalPath recordId i) <;> simp [hsd, hdl]

theorem sizeCloseEnough_true_iff (e d : Nat) :
    sizeCloseEnough e d = true ↔ Int.natAbs ((e : Int) - (d : Int)) * 100 < d := by
  unfold sizeCloseEnough
  simp only [Bool.and_eq_true, bne_iff_ne, ne_eq, decide_eq_true_eq]
  constructor
  · intro h
    exact h.2
  · intro h
    refine ⟨?_, h⟩
    intro hd
    subst hd
    omega

theorem sizeCloseEnough_false_of_not (e d : Nat)
    (h : ¬(Int.natAbs ((e : Int) - (d : Int)) * 100 < d)) :
    sizeCloseEnough e d = false := by
  cases hcb : sizeCloseEnough e d with
  | false => rfl
  | true => exact absurd ((sizeCloseEnough_true_iff e d).mp hcb) h

/-- Claim C1: for every image descriptor processed by `processImages`,
if a file already exists at the computed local path and its byte size
differs from the declared size by a relative difference under 1%, no
`downloadImage` call is made for that image; if a file exists and the
relative difference is 1% or more, or if no file exists, exactly one
`downloadImage` call is made; and if reading the existing size fails,
the image is downloaded anyway. -/
theorem c1_image_download_decision (fs : FS) (net : Net) (recordId : String)
    (images : List ImageAttachment) (i : Nat) (image : ImageAttachment)
    (h : images[i]? = some image) :
    ∃ result, (processImagesResults fs net recordId images)[i]? = some result ∧
      result.1 = (if fs.fileExists (imageLocalPath recordId i) then
          match fs.statSize (imageLocalPath recordId i) with
          | Except.ok existingSize =>
            if Int.natAbs ((existingSize : Int) - (image.size : Int)) * 100 < image.size then
              ([] : List DownloadRequest)
            else [⟨image.url, imageLocalPath recordId i⟩]
          | Except.error _ => [⟨image.url, imageLocalPath recordId i⟩]
        else [⟨image.url, imageLocalPath recordId i⟩]) := by
  refine ⟨processOneImage fs net recordId i image, ?_, ?_⟩
  · rw [processImagesResults_getElem, h]
    rfl
  · rw [processOneImage_fst]
    unfold shouldDownloadImage
    cases hex : fs.fileExists (imageLocalPath recordId i) with
    | false => simp
    | true =>
      cases hstat : fs.statSize (imageLocalPath recordId i) with
      | ok s =>
        by_cases hclose : Int.natAbs ((s : Int) - (image.size : Int)) * 100 < image.size
        · have hc : sizeCloseEnough s image.size = true :=
            (sizeCloseEnough_true_iff s image.size).mpr hclose
          simp [hc, hclose]
        · have hc : sizeCloseEnough s image.size = false :=
            sizeCloseEnough_false_of_not s image.size hclose
          simp [hc, hclose]
      | error e => simp

/-- Claim C9: for every image descriptor whose declared size is 0 and
for which a file already exists at the computed local path, the
size-tolerance computation (a JavaScript float division by the declared
size, yielding NaN or Infinity with no zero guard) never satisfies the
skip comparison, so the image is always re-downloaded: exactly one
`downloadImage` call is made. -/
theorem c9_zero_declared_size_always_redownloads (fs : FS) (net : Net) (recordId : String)
    (images : List ImageAttachment) (i : Nat) (image : ImageAttachment)
    (h : images[i]? = some image) (hz : image.size = 0)
    (hex : fs.fileExists (imageLocalPath recordId i) = true) :
    ∃ result, (processImagesResults fs net recordId images)[i]? = some result ∧
      result.1 = [⟨image.url, imageLocalPath recordId i⟩] := by
  refine ⟨processOneImage fs net recordId i image, ?_, ?_⟩
  · rw [processImagesResults_getElem, h]
    rfl
  · rw [processOneImage_fst]
    have hsd : ∀ s : Nat, sizeCloseEnough s image.size = false := by
      intro s
      apply sizeCloseEnough_false_of_not
      rw [hz]
      omega
    unfold shouldDownloadImage
    cases hstat : fs.statSize (imageLocalPath recordId i) with
    | ok s => simp [hex, hstat, hsd]
    | error e => simp [hex, hstat]

theorem c1_image_download_decision_witness :
    ([wImgA][0]? = some wImgA) ∧
    ∃ result, (processImagesResults statFS1000 happyNet "recA" [wImgA])[0]? = some result ∧
      result.1 = [] := by
  refine ⟨rfl, ?_⟩
  obtain ⟨r, hr, he⟩ :=
    c1_image_download_decision statFS1000 happyNet "recA" [wImgA] 0 wImgA rfl
  refine ⟨r, hr, ?_⟩
  rw [he]
  decide

theorem c9_zero_declared_size_always_redownloads_witness :
    ([wImgZ][0]? = some wImgZ) ∧ wImgZ.size = 0 ∧
    statFS1000.fileExists (imageLocalPath "recZ" 0) = true ∧
    ∃ result, (processImagesResults statFS1000 happyNet "recZ" [wImgZ])[0]? = some result ∧
      result.1 = [⟨wImgZ.url, imageLocalPath "recZ" 0⟩] := by
  refine ⟨rfl, rfl, rfl, ?_⟩
  exact c9_zero_declared_size_always_redownloads statFS1000 happyNet "recZ" [wImgZ] 0 wImgZ
    rfl rfl rfl

theorem fetch_refines_spec (api : Nat → AirtableRequest → ApiResponse)
    (hok : ∀ j r, ∃ recs off, api j r = ApiResponse.ok recs off ∧ off ≠ some "") :
    ∀ fuel k tableName offset,
      (offset = none ∨ ∃ s, offset = some s ∧ s ≠ "") →
      fetchAirtableRecords api fuel k tableName none offset =
        (specPaginatedFetch api fuel k tableName offset).map
          (fun x => (x.1, x.2.1.map FetchEvent.request, Except.ok x.2.2)) := by
  intro fuel
  induction fuel with
  | zero => intro k tableName offset hoff; rfl
  | succ n ih =>
    intro k tableName offset hoff
    have hreq : mkAirtableRequest tableName none offset =
        ({ table := tableName, maxRecords := none, offset := offset } : AirtableRequest) := by
      rcases hoff with h | ⟨s, hs, hne⟩
      · rw [h]; rfl
      · rw [hs]
        unfold mkAirtableRequest truthyNat truthyStr
        simp [hne]
    obtain ⟨recs, off, hapi, hoffne⟩ :=
      hok k ({ table := tableName, maxRecords := none, offset := offset })
    simp only [fetchAirtableRecords, specPaginatedFetch, hreq, hapi]
    cases off with
    | none => rfl
    | some s =>
      have hsne : s ≠ "" := by intro hs; exact hoffne (by rw [hs])
      have htr : truthyStr (some s) = true := by simp [truthyStr, hsne]
      rw [ih (k + 1) tableName (some s) (Or.inr ⟨s, rfl, hsne⟩)]
      simp only [htr, truthyNat, Bool.not_false, Bool.and_true]
      cases hs2 : specPaginatedFetch api n (k + 1) tableName (some s) with
      | none => rfl
      | some x =>
        obtain ⟨k2, reqs, rest⟩ := x
        rfl

/-- Claim C2: for every table fetch with no max-records bound, when the
API response carries a continuation offset the fetcher issues a
follow-up request with that offset and returns the concatenation of all
pages' records in page order until a response arrives without an offset
(formalised as refinement of `specPaginatedFetch`, assuming the API
answers without errors and without empty-string offsets); when a
nonzero max-records bound is given, exactly one page is requested and
returned, with no follow-up pagination even if the response carries an
offset. -/
theorem c2_pagination_behavior (api : Nat → AirtableRequest → ApiResponse)
    (fuel k : Nat) (tableName : String) :
    ((∀ j r, ∃ recs off, api j r = ApiResponse.ok recs off ∧ off ≠ some "") →
      fetchAirtableRecords api fuel k tableName none none =
        (specPaginatedFetch api fuel k tableName none).map
          (fun x => (x.1, x.2.1.map FetchEvent.request, Except.ok x.2.2))) ∧
    (∀ n offset records respOffset, n ≠ 0 →
      api k (mkAirtableRequest tableName (some n) offset) =
        ApiResponse.ok records respOffset →
      fetchAirtableRecords api (fuel + 1) k tableName (some n) offset =
        some (k + 1, [FetchEvent.request (mkAirtableRequest tableName (some n) offset)],
          Except.ok records)) := by
  constructor
  · intro hok
    exact fetch_refines_spec api hok fuel k tableName none (Or.inl rfl)
  · intro n offset records respOffset hn hapi
    have htn : truthyNat (some n) = true := by simp [truthyNat, hn]
    simp only [fetchAirtableRecords, hapi, htn, Bool.not_true, Bool.and_false,
      Bool.false_eq_true, if_false]

theorem c2_pagination_behavior_witness :
    fetchAirtableRecords wPageApi 2 0 "t" none none =
      some (2,
        [FetchEvent.request ⟨"t", none, none⟩, FetchEvent.request ⟨"t", none, some "off1"⟩],
        Except.ok [⟨"r1", {}⟩, ⟨"r2", {}⟩]) ∧
    fetchAirtableRecords wPageApi 1 0 "t" (some 5) none =
      some (1, [FetchEvent.request (mkAirtableRequest "t" (some 5) none)],
        Except.ok [⟨"r1", {}⟩]) := by
  have hok : ∀ j r, ∃ recs off, wPageApi j r = ApiResponse.ok recs off ∧ off ≠ some "" := by
    intro j r
    by_cases hj : (j == 0) = true
    · exact ⟨[⟨"r1", {}⟩], some "off1", by simp [wPageApi, hj], by decide⟩
    · refine ⟨[⟨"r2", {}⟩], none, ?_, by decide⟩
      simp only [wPageApi]
      rw [if_neg]
      intro hc
      exact hj hc
  constructor
  · rw [(c2_pagination_behavior wPageApi 2 0 "t").1 hok]
    rfl
  · exact (c2_pagination_behavior wPageApi 0 0 "t").2 5 none [⟨"r1", {}⟩] (some "off1")
      (by decide) (by decide)

theorem fetchAirtableRecords_head (api : Nat → AirtableRequest → ApiResponse)
    (fuel k : Nat) (tableName : String) (maxRecords : Option Nat) (offset : Option String)
    (k2 : Nat) (evs : List FetchEvent) (res : Except Nat (List AirtableRecord))
    (h : fetchAirtableRecords api fuel k tableName maxRecords offset = some (k2, evs, res)) :
    evs.head? = some (FetchEvent.request (mkAirtableRequest tableName maxRecords offset)) := by
  cases fuel with
  | zero => exact Option.noConfusion h
  | succ n =>
    simp only [fetchAirtableRecords] at h
    split at h
    · split at h
      · split at h
        · injection h with h1
          injection h1 with ha hb
          injection hb with hc hd
          subst hc
          rfl
        · injection h with h1
          injection h1 with ha hb
          injection hb with hc hd
          subst hc
          rfl
        · exact Option.noConfusion h
      · injection h with h1
        injection h1 with ha hb
        injection hb with hc hd
        subst hc
        rfl
    · split at h
      · split at h
        · injection h with h1
          injection h1 with ha hb
          injection hb with hc hd
          subst hc
          rfl
        · exact Option.noConfusion h
      · injection h with h1
        injection h1 with ha hb
        injection hb with hc hd
        subst hc
        rfl

theorem fetch_429_replays (api : Nat → AirtableRequest → ApiResponse) (tableName : String)
    (maxRecords : Option Nat) (offset : Option String) :
    ∀ N fuel k,
      (∀ j, j < N → api (k + j) (mkAirtableRequest tableName maxRecords offset) =
        ApiResponse.err 429) →
      fetchAirtableRecords api (N + fuel) k tableName maxRecords offset =
        (fetchAirtableRecords api fuel (k + N) tableName maxRecords offset).map
          (fun x => (x.1,
            (List.replicate N
              [FetchEvent.request (mkAirtableRequest tableName maxRecords offset),
               FetchEvent.cooldown]).flatten ++ x.2.1,
            x.2.2)) := by
  intro N
  induction N with
  | zero =>
    intro fuel k h
    simp only [Nat.zero_add, Nat.add_zero, List.replicate_zero, List.flatten_nil, List.nil_append]
    cases hres : fetchAirtableRecords api fuel k tableName maxRecords offset with
    | none => rfl
    | some x =>
      obtain ⟨k2, evs, r⟩ := x
      rfl
  | succ m ih =>
    intro fuel k h
    have h0 : api k (mkAirtableRequest tableName maxRecords offset) = ApiResponse.err 429 := by
      have := h 0 (Nat.succ_pos m)
      rwa [Nat.add_zero] at this
    have hstep : (m + 1) + fuel = (m + fuel) + 1 := by omega
    rw [hstep]
    simp only [fetchAirtableRecords, h0]
    rw [if_pos (show ((429 : Nat) == 429) = true from rfl)]
    have hshift : ∀ j, j < m →
        api (k + 1 + j) (mkAirtableRequest tableName maxRecords offset) =
          ApiResponse.err 429 := by
      intro j hj
      have hkk : k + 1 + j = k + (j + 1) := by omega
      rw [hkk]
      exact h (j + 1) (by omega)
    rw [ih fuel (k + 1) hshift]
    have hk2 : k + 1 + m = k + (m + 1) := by omega
    rw [hk2]
    cases hres : fetchAirtableRecords api fuel (k + (m + 1)) tableName maxRecords offset with
    | none => rfl
    | some x =>
      obtain ⟨k2, evs, r⟩ := x
      simp [List.replicate_succ]

theorem downloadImage_429_replays (url filename : String) :
    ∀ N responses,
      downloadImage (List.replicate N (DlResponse.httpErr 429) ++ responses) url filename =
        (downloadImage responses url filename).map
          (fun x =>
            ((List.replicate N [DlEvent.request url filename, DlEvent.cooldown]).flatten ++ x.1,
             x.2)) := by
  intro N
  induction N with
  | zero =>
    intro responses
    simp only [List.replicate_zero, List.nil_append, List.flatten_nil]
    cases h : downloadImage responses url filename with
    | none => rfl
    | some x =>
      obtain ⟨evs, r⟩ := x
      rfl
  | succ m ih =>
    intro responses
    simp only [List.replicate_succ, List.cons_append, downloadImage, List.append_eq]
    rw [if_pos (show ((429 : Nat) == 429) = true from rfl)]
    rw [ih responses]
    cases h : downloadImage responses url filename with
    | none => rfl
    | some x =>
      obtain ⟨evs, r⟩ := x
      simp [List.replicate_succ]

theorem downloadImage_head (responses : List DlResponse) (url filename : String)
    (evs : List DlEvent) (res : Except DlError Unit)
    (h : downloadImage responses url filename = some (evs, res)) :
    evs.head? = some (DlEvent.request url filename) := by
  cases responses with
  | nil => exact Option.noConfusion h
  | cons resp rest =>
    cases resp with
    | ok =>
      injection h with h1
      injection h1 with hc hd
      subst hc
      rfl
    | writeErr =>
      injection h with h1
      injection h1 with hc hd
      subst hc
      rfl
    | httpErr status =>
      simp only [downloadImage] at h
      split at h
      · split at h
        · injection h with h1
          injection h1 with hc hd
          subst hc
          rfl
        · exact Option.noConfusion h
      · injection h with h1
        injection h1 with hc hd
        subst hc
        rfl

/-- Claim C3: for every request issued by the record fetcher or the
image downloader, an HTTP 429 response causes exactly one cooldown wait
followed by one retry of the identical request (same table, max-records
and offset for the fetcher; same url and filename for the downloader),
with no retry cap: N consecutive 429 responses produce N
request-cooldown pairs and the request is then still replayed (the
continuation trace starts with the identical request again). -/
theorem c3_rate_limit_retry (api : Nat → AirtableRequest → ApiResponse)
    (N fuel k : Nat) (tableName : String) (maxRecords : Option Nat) (offset : Option String)
    (responses : List DlResponse) (url filename : String) :
    ((∀ j, j < N → api (k + j) (mkAirtableRequest tableName maxRecords offset) =
        ApiResponse.err 429) →
      fetchAirtableRecords api (N + fuel) k tableName maxRecords offset =
        (fetchAirtableRecords api fuel (k + N) tableName maxRecords offset).map
          (fun x => (x.1,
            (List.replicate N
              [FetchEvent.request (mkAirtableRequest tableName maxRecords offset),
               FetchEvent.cooldown]).flatten ++ x.2.1,
            x.2.2))) ∧
    (∀ k2 evs res,
      fetchAirtableRecords api fuel k tableName maxRecords offset = some (k2, evs, res) →
      evs.head? = some (FetchEvent.request (mkAirtableRequest tableName maxRecords offset))) ∧
    (downloadImage (List.replicate N (DlResponse.httpErr 429) ++ responses) url filename =
      (downloadImage responses url filename).map
        (fun x =>
          ((List.replicate N [DlEvent.request url filename, DlEvent.cooldown]).flatten ++ x.1,
           x.2))) ∧
    (∀ evs res, downloadImage responses url filename = some (evs, res) →
      evs.head? = some (DlEvent.request url filename)) := by
  refine ⟨fetch_429_replays api tableName maxRecords offset N fuel k, ?_, ?_, ?_⟩
  · intro k2 evs res h
    exact fetchAirtableRecords_head api fuel k tableName maxRecords offset k2 evs res h
  · exact downloadImage_429_replays url filename N responses
  · intro evs res h
    exact downloadImage_head responses url filename evs res h

theorem c3_rate_limit_retry_witness :
    fetchAirtableRecords w429Api 3 0 "t" none none =
      some (3,
        [FetchEvent.request (mkAirtableRequest "t" none none), FetchEvent.cooldown,
         FetchEvent.request (mkAirtableRequest "t" none none), FetchEvent.cooldown,
         FetchEvent.request (mkAirtableRequest "t" none none)],
        Except.ok []) ∧
    downloadImage [DlResponse.httpErr 429, DlResponse.httpErr 429, DlResponse.ok] "u" "f" =
      some ([DlEvent.request "u" "f", DlEvent.cooldown,
             DlEvent.request "u" "f", DlEvent.cooldown,
             DlEvent.request "u" "f"],
        Except.ok ()) := by
  have h := c3_rate_limit_retry w429Api 2 1 0 "t" none none [DlResponse.ok] "u" "f"
  have h429 : ∀ j, j < 2 → w429Api (0 + j) (mkAirtableRequest "t" none none) =
      ApiResponse.err 429 := by
    intro j hj
    simp only [Nat.zero_add, w429Api, if_pos hj]
  constructor
  · rw [show (3 : Nat) = 2 + 1 from rfl, h.1 h429]
    rfl
  · rw [show [DlResponse.httpErr 429, DlResponse.httpErr 429, DlResponse.ok] =
        List.replicate 2 (DlResponse.httpErr 429) ++ [DlResponse.ok] from rfl, h.2.2.1]
    rfl

/-- Claim C4: for every mattress record resolved against given
photographer and location tables, each photographer id is replaced by
the first matching photographer object if one exists, otherwise by a
bare-id stub, the output preserving the id-array order and length; the
location is resolved from only the first id of the location array (any
further ids are ignored: the conclusion does not depend on `rest`),
becoming the matching location object or a bare-id stub, and is `none`
when the record has no location field.  (The first id is assumed
nonempty, matching JavaScript truthiness of real Airtable ids.) -/
theorem c4_reference_resolution (photographers : List Photographer)
    (locations : List Location) (record : AirtableRecord) (ds : List ImageDescriptor) :
    (∀ ids, record.fields.photographer = some ids →
      (buildMattress photographers locations record ds).photographers.length = ids.length ∧
      ∀ (i : Nat) (id : String), ids[i]? = some id →
        (buildMattress photographers locations record ds).photographers[i]? =
          some (match photographers.find? (fun p => p.id == id) with
                | some p => Resolved.full p
                | none => Resolved.stub id)) ∧
    (∀ locId rest, record.fields.location = some (locId :: rest) → locId ≠ "" →
      (buildMattress photographers locations record ds).location =
        some (match locations.find? (fun l => l.id == locId) with
              | some l => Resolved.full l
              | none => Resolved.stub locId)) ∧
    (record.fields.location = none →
      (buildMattress photographers locations record ds).location = none) := by
  refine ⟨?_, ?_, ?_⟩
  · intro ids hids
    constructor
    · simp [buildMattress, resolvePhotographers, hids]
    · intro i id hid
      simp only [buildMattress, resolvePhotographers, hids, Option.getD_some]
      rw [List.getElem?_map, hid]
      rfl
  · intro locId rest hloc hne
    simp only [buildMattress, resolveLocation, hloc, List.head?_cons]
    rw [if_neg (by simp [hne])]
  · intro hloc
    simp [buildMattress, resolveLocation, hloc]

theorem c4_reference_resolution_witness :
    wRawRecord.fields.photographer = some ["p2", "px"] ∧
    wRawRecord.fields.location = some ["l1", "l2"] ∧
    (buildMattress wPhotographerTable wLocationTable wRawRecord []).photographers.length = 2 ∧
    (buildMattress wPhotographerTable wLocationTable wRawRecord []).photographers[0]? =
      some (Resolved.full ⟨"p2", some "Bob"⟩) ∧
    (buildMattress wPhotographerTable wLocationTable wRawRecord []).photographers[1]? =
      some (Resolved.stub "px") ∧
    (buildMattress wPhotographerTable wLocationTable wRawRecord []).location =
      some (Resolved.full ⟨"l1", some "Bern"⟩) := by
  have h := c4_reference_resolution wPhotographerTable wLocationTable wRawRecord []
  have h1 := h.1 ["p2", "px"] rfl
  refine ⟨rfl, rfl, h1.1, ?_, ?_, ?_⟩
  · exact (h1.2 0 "p2" rfl).trans rfl
  · exact (h1.2 1 "px" rfl).trans rfl
  · exact (h.2.1 "l1" ["l2"] rfl (by decide)).trans rfl

theorem loadOrFetchMattresses_shape (env : Env) (fs1 fs2 : FS) (net1 net2 : Net)
    (k : Nat) (ps : List Photographer) (ls : List Location) :
    Option.map (fun x => exceptErrOf x.2.2)
        (loadOrFetchMattresses {env with fs := fs1, net := net1} k ps ls) =
      Option.map (fun x => exceptErrOf x.2.2)
        (loadOrFetchMattresses {env with fs := fs2, net := net2} k ps ls) := by
  unfold loadOrFetchMattresses
  dsimp only
  cases hmf : env.mattressesFile with
  | some ms => rfl
  | none =>
    unfold fetchMattresses
    dsimp only
    cases hfr : fetchAirtableRecords env.api env.fuel k "allMatresses" none none with
    | none => rfl
    | some x =>
      obtain ⟨k2, evs, res⟩ := x
      cases res <;> rfl

theorem mainExitCode_fs_net_independent (env : Env) (fs1 fs2 : FS) (net1 net2 : Net) :
    mainExitCode {env with fs := fs1, net := net1} =
      mainExitCode {env with fs := fs2, net := net2} := by
  unfold mainExitCode main
  have h1 : loadOrFetchPhotographers {env with fs := fs1, net := net1} 0 =
      loadOrFetchPhotographers {env with fs := fs2, net := net2} 0 := rfl
  rw [h1]
  cases hp : loadOrFetchPhotographers {env with fs := fs2, net := net2} 0 with
  | none => rfl
  | some x1 =>
    obtain ⟨k1, evs1, res1⟩ := x1
    cases res1 with
    | error e => rfl
    | ok photographers =>
      dsimp only
      have h2 : loadOrFetchLocations {env with fs := fs1, net := net1} k1 =
          loadOrFetchLocations {env with fs := fs2, net := net2} k1 := rfl
      rw [h2]
      cases hl : loadOrFetchLocations {env with fs := fs2, net := net2} k1 with
      | none => rfl
      | some x2 =>
        obtain ⟨k2, evs2, res2⟩ := x2
        cases res2 with
        | error e => rfl
        | ok locations =>
          dsimp only
          have h3 := loadOrFetchMattresses_shape env fs1 fs2 net1 net2 k2
            photographers locations
          cases hm1 : loadOrFetchMattresses {env with fs := fs1, net := net1} k2
              photographers locations with
          | none =>
            cases hm2 : loadOrFetchMattresses {env with fs := fs2, net := net2} k2
                photographers locations with
            | none => rfl
            | some y2 =>
              rw [hm1, hm2] at h3
              exact Option.noConfusion h3
          | some y1 =>
            obtain ⟨k3, evs3, res3⟩ := y1
            cases hm2 : loadOrFetchMattresses {env with fs := fs2, net := net2} k2
                photographers locations with
            | none =>
              rw [hm1, hm2] at h3
              exact Option.noConfusion h3
            | some y2 =>
              obtain ⟨k4, evs4, res4⟩ := y2
              rw [hm1, hm2] at h3
              cases res3 with
              | error e3 =>
                cases res4 with
                | error e4 => rfl
                | ok m4 => simp [exceptErrOf] at h3
              | ok m3 =>
                cases res4 with
                | error e4 => simp [exceptErrOf] at h3
                | ok m4 => rfl

/-- Claim C5: a download failure for one image does not abort the
processing of the remaining images (every input image gets its loop
iteration), the failed image is omitted from the returned descriptor
sequence while the surviving descriptors keep their original relative
order (the output is the order-preserving `filterMap` of the inputs),
and the process exit code is unaffected by per-image failures (the exit
code does not depend on the download or filesystem oracles at all). -/
theorem c5_per_image_failure_isolation (fs : FS) (net : Net) (recordId : String)
    (images : List ImageAttachment) (env : Env) (fs1 fs2 : FS) (net1 net2 : Net) :
    (processImagesResults fs net recordId images).length = images.length ∧
    (processImages fs net recordId images).2 =
      images.enum.filterMap (fun p =>
        if shouldDownloadImage fs (imageLocalPath recordId p.1) p.2.size
            && !net.download p.2.url (imageLocalPath recordId p.1) then
          none
        else some (mkImageDescriptor recordId p.1 p.2)) ∧
    mainExitCode {env with fs := fs1, net := net1} =
      mainExitCode {env with fs := fs2, net := net2} := by
  refine ⟨?_, ?_, mainExitCode_fs_net_independent env fs1 fs2 net1 net2⟩
  · simp [processImagesResults, List.enum_length]
  · unfold processImages processImagesResults
    dsimp only
    rw [List.filterMap_map]
    apply List.filterMap_congr
    intro p hp
    exact processOneImage_snd fs net recordId p.1 p.2

theorem fetchAirtableRecords_events_table (api : Nat → AirtableRequest → ApiResponse)
    (tableName : String) :
    ∀ fuel k maxRecords offset k2 evs res,
      fetchAirtableRecords api fuel k tableName maxRecords offset = some (k2, evs, res) →
      ∀ ev ∈ evs, ∀ req, ev = FetchEvent.request req → req.table = tableName := by
  intro fuel
  induction fuel with
  | zero =>
    intro k mr off k2 evs res h
    exact Option.noConfusion h
  | succ n ih =>
    intro k mr off k2 evs res h ev hev req hreq
    simp only [fetchAirtableRecords] at h
    cases hapi : api k (mkAirtableRequest tableName mr off) with
    | ok records respOffset =>
      rw [hapi] at h
      dsimp only at h
      by_cases hcond : (truthyStr respOffset && !truthyNat mr) = true
      · rw [if_pos hcond] at h
        cases hrec : fetchAirtableRecords api n (k + 1) tableName none respOffset with
        | none =>
          rw [hrec] at h
          exact Option.noConfusion h
        | some x =>
          obtain ⟨k2x, evsx, resx⟩ := x
          rw [hrec] at h
          cases resx with
          | ok nr =>
            injection h with h1
            injection h1 with ha hb
            injection hb with hc hd
            subst hc
            rcases List.mem_cons.mp hev with hcase | hcase
            · rw [hreq] at hcase
              injection hcase with he
              rw [he]
              rfl
            · exact ih (k + 1) none respOffset k2x evsx (Except.ok nr) hrec ev hcase req hreq
          | error e =>
            injection h with h1
            injection h1 with ha hb
            injection hb with hc hd
            subst hc
            rcases List.mem_cons.mp hev with hcase | hcase
            · rw [hreq] at hcase
              injection hcase with he
              rw [he]
              rfl
            · exact ih (k + 1) none respOffset k2x evsx (Except.error e) hrec ev hcase req hreq
      · rw [if_neg hcond] at h
        injection h with h1
        injection h1 with ha hb
        injection hb with hc hd
        subst hc
        rcases List.mem_cons.mp hev with hcase | hcase
        · rw [hreq] at hcase
          injection hcase with he
          rw [he]
          rfl
        · exact absurd hcase (List.not_mem_nil ev)
    | err status =>
      rw [hapi] at h
      dsimp only at h
      by_cases hst : (status == 429) = true
      · rw [if_pos hst] at h
        cases hrec : fetchAirtableRecords api n (k + 1) tableName mr off with
        | none =>
          rw [hrec] at h
          exact Option.noConfusion h
        | some x =>
          obtain ⟨k2x, evsx, resx⟩ := x
          rw [hrec] at h
          injection h with h1
          injection h1 with ha hb
          injection hb with hc hd
          subst hc
          rcases List.mem_cons.mp hev with hcase | hcase
          · rw [hreq] at hcase
            injection hcase with he
            rw [he]
            rfl
          · rcases List.mem_cons.mp hcase with hcase2 | hcase2
            · rw [hreq] at hcase2
              exact FetchEvent.noConfusion hcase2
            · exact ih (k + 1) mr off k2x evsx resx hrec ev hcase2 req hreq
      · rw [if_neg hst] at h
        injection h with h1
        injection h1 with ha hb
        injection hb with hc hd
        subst hc
        rcases List.mem_cons.mp hev with hcase | hcase
        · rw [hreq] at hcase
          injection hcase with he
          rw [he]
          rfl
        · exact absurd hcase (List.not_mem_nil ev)

theorem isApiRequestFor_false_of_other_table (t other : String) (h : other ≠ t)
    (ev : MainEvent)
    (htab : ∀ req, ev = MainEvent.apiRequest req → req.table = other) :
    isApiRequestFor t ev = false := by
  cases ev with
  | apiRequest req =>
    have := htab req rfl
    simp [isApiRequestFor, this, h]
  | apiCooldown => rfl
  | imgRequest u f => rfl
  | writeJson f c => rfl

theorem liftFetchEvent_not_combinedWrite (fe : FetchEvent) :
    isCombinedWrite (liftFetchEvent fe) = false := by
  cases fe <;> rfl

theorem loadOrFetchPhotographers_events (env : Env) (k k2 : Nat) (evs : List MainEvent)
    (res : Except Nat (List Photographer))
    (h : loadOrFetchPhotographers env k = some (k2, evs, res)) :
    (∀ ev ∈ evs, isCombinedWrite ev = false) ∧
    (∀ ev ∈ evs, ∀ req, ev = MainEvent.apiRequest req → req.table = "photographer") ∧
    (∀ ps, env.photographerFile = some ps → evs = [] ∧ res = Except.ok ps) ∧
    (env.photographerFile = none →
      ((∃ ev ∈ evs, isApiRequestFor "photographer" ev = true) ∧
       ∀ ps, res = Except.ok ps →
         MainEvent.writeJson photographerJsonPath (FileContent.photographers ps) ∈ evs)) := by
  unfold loadOrFetchPhotographers at h
  cases hpf : env.photographerFile with
  | some ps0 =>
    rw [hpf] at h
    dsimp only at h
    injection h with h1
    injection h1 with ha hb
    injection hb with hc hd
    subst hc
    subst hd
    refine ⟨?_, ?_, ?_, ?_⟩
    · intro ev hev
      exact absurd hev (List.not_mem_nil ev)
    · intro ev hev
      exact absurd hev (List.not_mem_nil ev)
    · intro ps hps
      injection hps with he
      exact ⟨rfl, by rw [he]⟩
    · intro hnone
      exact Option.noConfusion hnone
  | none =>
    rw [hpf] at h
    dsimp only at h
    unfold fetchPhotographers at h
    cases hfr : fetchAirtableRecords env.api env.fuel k "photographer" none none with
    | none =>
      rw [hfr] at h
      exact Option.noConfusion h
    | some x =>
      obtain ⟨kx, fevs, fres⟩ := x
      rw [hfr] at h
      have htab := fetchAirtableRecords_events_table env.api "photographer" env.fuel k
        none none kx fevs fres hfr
      have hhead := fetchAirtableRecords_head env.api env.fuel k "photographer" none none
        kx fevs fres hfr
      have hex : ∃ ev ∈ fevs.map liftFetchEvent, isApiRequestFor "photographer" ev = true := by
        cases fevs with
        | nil => exact Option.noConfusion hhead
        | cons f0 rest =>
          injection hhead with hh
          refine ⟨liftFetchEvent f0, List.mem_map.mpr ⟨f0, List.mem_cons_self f0 rest, rfl⟩, ?_⟩
          rw [hh]
          rfl
      have hlift1 : ∀ ev ∈ fevs.map liftFetchEvent, isCombinedWrite ev = false := by
        intro ev hev
        rcases List.mem_map.mp hev with ⟨fe, hfe, hl⟩
        rw [← hl]
        exact liftFetchEvent_not_combinedWrite fe
      have hlift2 : ∀ ev ∈ fevs.map liftFetchEvent, ∀ req,
          ev = MainEvent.apiRequest req → req.table = "photographer" := by
        intro ev hev req hreq
        rcases List.mem_map.mp hev with ⟨fe, hfe, hl⟩
        rw [hreq] at hl
        cases fe with
        | request r =>
          injection hl with hr
          rw [← hr]
          exact htab (FetchEvent.request r) hfe r rfl
        | cooldown => exact MainEvent.noConfusion hl
      cases fres with
      | ok records =>
        dsimp only at h
        injection h with h1
        injection h1 with ha hb
        injection hb with hc hd
        subst hc
        subst hd
        refine ⟨?_, ?_, ?_, ?_⟩
        · intro ev hev
          rcases List.mem_append.mp hev with hin | hin
          · exact hlift1 ev hin
          · rw [List.mem_singleton] at hin
            rw [hin]
            rfl
        · intro ev hev req hreq
          rcases List.mem_append.mp hev with hin | hin
          · exact hlift2 ev hin req hreq
          · rw [List.mem_singleton] at hin
            rw [hin] at hreq
            exact MainEvent.noConfusion hreq
        · intro ps hps
          exact Option.noConfusion hps
        · intro _
          constructor
          · rcases hex with ⟨ev, hev, hv⟩
            exact ⟨ev, List.mem_append.mpr (Or.inl hev), hv⟩
          · intro ps hres
            injection hres with he
            rw [← he]
            exact List.mem_append.mpr (Or.inr (List.mem_singleton.mpr rfl))
      | error e =>
        dsimp only at h
        injection h with h1
        injection h1 with ha hb
        injection hb with hc hd
        subst hc
        subst hd
        refine ⟨hlift1, hlift2, ?_, ?_⟩
        · intro ps hps
          exact Option.noConfusion hps
        · intro _
          refine ⟨hex, ?_⟩
          intro ps hres
          exact Except.noConfusion hres

theorem loadOrFetchLocations_events (env : Env) (k k2 : Nat) (evs : List MainEvent)
    (res : Except Nat (List Location))
    (h : loadOrFetchLocations env k = some (k2, evs, res)) :
    (∀ ev ∈ evs, isCombinedWrite ev = false) ∧
    (∀ ev ∈ evs, ∀ req, ev = MainEvent.apiRequest req → req.table = "location") ∧
    (∀ ls, env.locationFile = some ls → evs = [] ∧ res = Except.ok ls) ∧
    (env.locationFile = none →
      ((∃ ev ∈ evs, isApiRequestFor "location" ev = true) ∧
       ∀ ls, res = Except.ok ls →
         MainEvent.writeJson locationJsonPath (FileContent.locations ls) ∈ evs)) := by
  unfold loadOrFetchLocations at h
  cases hpf : env.locationFile with
  | some ls0 =>
    rw [hpf] at h
    dsimp only at h
    injection h with h1
    injection h1 with ha hb
    injection hb with hc hd
    subst hc
    subst hd
    refine ⟨?_, ?_, ?_, ?_⟩
    · intro ev hev
      exact absurd hev (List.not_mem_nil ev)
    · intro ev hev
      exact absurd hev (List.not_mem_nil ev)
    · intro ls hls
      injection hls with he
      exact ⟨rfl, by rw [he]⟩
    · intro hnone
      exact Option.noConfusion hnone
  | none =>
    rw [hpf] at h
    dsimp only at h
    unfold fetchLocations at h
    cases hfr : fetchAirtableRecords env.api env.fuel k "location" none none with
    | none =>
      rw [hfr] at h
      exact Option.noConfusion h
    | some x =>
      obtain ⟨kx, fevs, fres⟩ := x
      rw [hfr] at h
      have htab := fetchAirtableRecords_events_table env.api "location" env.fuel k
        none none kx fevs fres hfr
      have hhead := fetchAirtableRecords_head env.api env.fuel k "location" none none
        kx fevs fres hfr
      have hex : ∃ ev ∈ fevs.map liftFetchEvent, isApiRequestFor "location" ev = true := by
        cases fevs with
        | nil => exact Option.noConfusion hhead
        | cons f0 rest =>
          injection hhead with hh
          refine ⟨liftFetchEvent f0, List.mem_map.mpr ⟨f0, List.mem_cons_self f0 rest, rfl⟩, ?_⟩
          rw [hh]
          rfl
      have hlift1 : ∀ ev ∈ fevs.map liftFetchEvent, isCombinedWrite ev = false := by
        intro ev hev
        rcases List.mem_map.mp hev with ⟨fe, hfe, hl⟩
        rw [← hl]
        exact liftFetchEvent_not_combinedWrite fe
      have hlift2 : ∀ ev ∈ fevs.map liftFetchEvent, ∀ req,
          ev = MainEvent.apiRequest req → req.table = "location" := by
        intro ev hev req hreq
        rcases List.mem_map.mp hev with ⟨fe, hfe, hl⟩
        rw [hreq] at hl
        cases fe with
        | request r =>
          injection hl with hr
          rw [← hr]
          exact htab (FetchEvent.request r) hfe r rfl
        | cooldown => exact MainEvent.noConfusion hl
      cases fres with
      | ok records =>
        dsimp only at h
        injection h with h1
        injection h1 with ha hb
        injection hb with hc hd
        subst hc
        subst hd
        refine ⟨?_, ?_, ?_, ?_⟩
        · intro ev hev
          rcases List.mem_append.mp hev with hin | hin
          · exact hlift1 ev hin
          · rw [List.mem_singleton] at hin
            rw [hin]
            rfl
        · intro ev hev req hreq
          rcases List.mem_append.mp hev with hin | hin
          · exact hlift2 ev hin req hreq
          · rw [List.mem_singleton] at hin
            rw [hin] at hreq
            exact MainEvent.noConfusion hreq
        · intro ls hls
          exact Option.noConfusion hls
        · intro _
          constructor
          · rcases hex with ⟨ev, hev, hv⟩
            exact ⟨ev, List.mem_append.mpr (Or.inl hev), hv⟩
          · intro ls hres
            injection hres with he
            rw [← he]
            exact List.mem_append.mpr (Or.inr (List.mem_singleton.mpr rfl))
      | error e =>
        dsimp only at h
        injection h with h1
        injection h1 with ha hb
        injection hb with hc hd
        subst hc
        subst hd
        refine ⟨hlift1, hlift2, ?_, ?_⟩
        · intro ls hls
          exact Option.noConfusion hls
        · intro _
          refine ⟨hex, ?_⟩
          intro ls hres
          exact Except.noConfusion hres

theorem loadOrFetchMattresses_events (env : Env) (k : Nat)
    (photographers : List Photographer) (locations : List Location) (k2 : Nat)
    (evs : List MainEvent) (res : Except Nat (List Mattress))
    (h : loadOrFetchMattresses env k photographers locations = some (k2, evs, res)) :
    (∀ ev ∈ evs, isCombinedWrite ev = false) ∧
    (∀ ev ∈ evs, ∀ req, ev = MainEvent.apiRequest req → req.table = "allMatresses") ∧
    (∀ ms, env.mattressesFile = some ms → res = Except.ok ms) := by
  unfold loadOrFetchMattresses at h
  cases hmf : env.mattressesFile with
  | some ms0 =>
    rw [hmf] at h
    dsimp only at h
    injection h with h1
    injection h1 with ha hb
    injection hb with hc hd
    subst hc
    subst hd
    have himg : ∀ ev ∈ (ms0.flatMap fun m =>
        (processImages env.fs env.net m.id (m.images.map descriptorToAttachment)).1.map
          fun (rq : DownloadRequest) => MainEvent.imgRequest rq.url rq.filename),
        ∃ u f, ev = MainEvent.imgRequest u f := by
      intro ev hev
      rcases List.mem_flatMap.mp hev with ⟨m, hm, hin⟩
      rcases List.mem_map.mp hin with ⟨rq, hrq, hl⟩
      exact ⟨rq.url, rq.filename, hl.symm⟩
    refine ⟨?_, ?_, ?_⟩
    · intro ev hev
      rcases himg ev hev with ⟨u, f, he⟩
      rw [he]
      rfl
    · intro ev hev req hreq
      rcases himg ev hev with ⟨u, f, he⟩
      rw [he] at hreq
      exact MainEvent.noConfusion hreq
    · intro ms hms
      injection hms with he
      rw [he]
  | none =>
    rw [hmf] at h
    dsimp only at h
    unfold fetchMattresses at h
    cases hfr : fetchAirtableRecords env.api env.fuel k "allMatresses" none none with
    | none =>
      rw [hfr] at h
      exact Option.noConfusion h
    | some x =>
      obtain ⟨kx, fevs, fres⟩ := x
      rw [hfr] at h
      have htab := fetchAirtableRecords_events_table env.api "allMatresses" env.fuel k
        none none kx fevs fres hfr
      have hlift1 : ∀ ev ∈ fevs.map liftFetchEvent, isCombinedWrite ev = false := by
        intro ev hev
        rcases List.mem_map.mp hev with ⟨fe, hfe, hl⟩
        rw [← hl]
        exact liftFetchEvent_not_combinedWrite fe
      have hlift2 : ∀ ev ∈ fevs.map liftFetchEvent, ∀ req,
          ev = MainEvent.apiRequest req → req.table = "allMatresses" := by
        intro ev hev req hreq
        rcases List.mem_map.mp hev with ⟨fe, hfe, hl⟩
        rw [hreq] at hl
        cases fe with
        | request r =>
          injection hl with hr
          rw [← hr]
          exact htab (FetchEvent.request r) hfe r rfl
        | cooldown => exact MainEvent.noConfusion hl
      cases fres with
      | ok records =>
        dsimp only at h
        injection h with h1
        injection h1 with ha hb
        injection hb with hc hd
        subst hc
        subst hd
        have himg : ∀ ev ∈ (records.flatMap fun record =>
            (processImages env.fs env.net record.id (record.fields.images.getD [])).1.map
              fun (rq : DownloadRequest) => MainEvent.imgRequest rq.url rq.filename),
            ∃ u f, ev = MainEvent.imgRequest u f := by
          intro ev hev
          rcases List.mem_flatMap.mp hev with ⟨m, hm, hin⟩
          rcases List.mem_map.mp hin with ⟨rq, hrq, hl⟩
          exact ⟨rq.url, rq.filename, hl.symm⟩
        refine ⟨?_, ?_, ?_⟩
        · intro ev hev
          rcases List.mem_append.mp hev with hin | hin
          · rcases List.mem_append.mp hin with hin2 | hin2
            · exact hlift1 ev hin2
            · rcases himg ev hin2 with ⟨u, f, he⟩
              rw [he]
              rfl
          · rw [List.mem_singleton] at hin
            rw [hin]
            rfl
        · intro ev hev req hreq
          rcases List.mem_append.mp hev with hin | hin
          · rcases List.mem_append.mp hin with hin2 | hin2
            · exact hlift2 ev hin2 req hreq
            · rcases himg ev hin2 with ⟨u, f, he⟩
              rw [he] at hreq
              exact MainEvent.noConfusion hreq
          · rw [List.mem_singleton] at hin
            rw [hin] at hreq
            exact MainEvent.noConfusion hreq
        · intro ms hms
          exact Option.noConfusion hms
      | error e =>
        dsimp only at h
        injection h with h1
        injection h1 with ha hb
        injection hb with hc hd
        subst hc
        subst hd
        refine ⟨hlift1, hlift2, ?_⟩
        intro ms hms
        exact Option.noConfusion hms

theorem main_cases (env : Env) (evs : List MainEvent) (r : Except Nat DataStore)
    (hrun : main env = some (evs, r)) :
    (∃ k1 evs1 e, loadOrFetchPhotographers env 0 = some (k1, evs1, Except.error e) ∧
      evs = evs1 ∧ r = Except.error e) ∨
    (∃ k1 evs1 phs k2 evs2 e,
      loadOrFetchPhotographers env 0 = some (k1, evs1, Except.ok phs) ∧
      loadOrFetchLocations env k1 = some (k2, evs2, Except.error e) ∧
      evs = evs1 ++ evs2 ∧ r = Except.error e) ∨
    (∃ k1 evs1 phs k2 evs2 ls k3 evs3 e,
      loadOrFetchPhotographers env 0 = some (k1, evs1, Except.ok phs) ∧
      loadOrFetchLocations env k1 = some (k2, evs2, Except.ok ls) ∧
      loadOrFetchMattresses env k2 phs ls = some (k3, evs3, Except.error e) ∧
      evs = evs1 ++ evs2 ++ evs3 ∧ r = Except.error e) ∨
    (∃ k1 evs1 phs k2 evs2 ls k3 evs3 ms,
      loadOrFetchPhotographers env 0 = some (k1, evs1, Except.ok phs) ∧
      loadOrFetchLocations env k1 = some (k2, evs2, Except.ok ls) ∧
      loadOrFetchMattresses env k2 phs ls = some (k3, evs3, Except.ok ms) ∧
      evs = evs1 ++ evs2 ++ evs3 ++
        [MainEvent.writeJson combinedJsonPath (FileContent.combined ms phs ls)] ∧
      r = Except.ok ⟨ms, phs, ls⟩) := by
  unfold main at hrun
  cases hp : loadOrFetchPhotographers env 0 with
  | none =>
    rw [hp] at hrun
    exact Option.noConfusion hrun
  | some x1 =>
    obtain ⟨k1, evs1, res1⟩ := x1
    rw [hp] at hrun
    cases res1 with
    | error e =>
      dsimp only at hrun
      injection hrun with h1
      injection h1 with ha hb
      exact Or.inl ⟨k1, evs1, e, rfl, ha.symm, hb.symm⟩
    | ok phs =>
      dsimp only at hrun
      cases hl : loadOrFetchLocations env k1 with
      | none =>
        rw [hl] at hrun
        exact Option.noConfusion hrun
      | some x2 =>
        obtain ⟨k2, evs2, res2⟩ := x2
        rw [hl] at hrun
        cases res2 with
        | error e =>
          dsimp only at hrun
          injection hrun with h1
          injection h1 with ha hb
          exact Or.inr (Or.inl ⟨k1, evs1, phs, k2, evs2, e, rfl, hl, ha.symm, hb.symm⟩)
        | ok ls =>
          dsimp only at hrun
          cases hm : loadOrFetchMattresses env k2 phs ls with
          | none =>
            rw [hm] at hrun
            exact Option.noConfusion hrun
          | some x3 =>
            obtain ⟨k3, evs3, res3⟩ := x3
            rw [hm] at hrun
            cases res3 with
            | error e =>
              dsimp only at hrun
              injection hrun with h1
              injection h1 with ha hb
              exact Or.inr (Or.inr (Or.inl
                ⟨k1, evs1, phs, k2, evs2, ls, k3, evs3, e, rfl, hl, hm, ha.symm, hb.symm⟩))
            | ok ms =>
              dsimp only at hrun
              injection hrun with h1
              injection h1 with ha hb
              exact Or.inr (Or.inr (Or.inr
                ⟨k1, evs1, phs, k2, evs2, ls, k3, evs3, ms, rfl, hl, hm, ha.symm, hb.symm⟩))

/-- Claim C6: for every run in which photographer.json (resp.
location.json) already exists on disk, the orchestrator loads that
file's contents into memory exactly as stored and issues no Airtable
request for that table; when the file is absent and the run succeeds,
the table was fetched from the API (at least one request for it was
issued) and its projection was persisted to its JSON file. -/
theorem c6_cached_tables_skip_fetch (env : Env) (evs : List MainEvent)
    (r : Except Nat DataStore) (hrun : main env = some (evs, r)) :
    (∀ ps, env.photographerFile = some ps →
      ((∀ ds, r = Except.ok ds → ds.photographer = ps) ∧
       ∀ ev ∈ evs, isApiRequestFor "photographer" ev = false)) ∧
    (∀ ls, env.locationFile = some ls →
      ((∀ ds, r = Except.ok ds → ds.location = ls) ∧
       ∀ ev ∈ evs, isApiRequestFor "location" ev = false)) ∧
    (env.photographerFile = none → ∀ ds, r = Except.ok ds →
      ((∃ ev ∈ evs, isApiRequestFor "photographer" ev = true) ∧
       MainEvent.writeJson photographerJsonPath
         (FileContent.photographers ds.photographer) ∈ evs)) ∧
    (env.locationFile = none → ∀ ds, r = Except.ok ds →
      ((∃ ev ∈ evs, isApiRequestFor "location" ev = true) ∧
       MainEvent.writeJson locationJsonPath (FileContent.locations ds.location) ∈ evs)) := by
  rcases main_cases env evs r hrun with
    ⟨k1, evs1, e, hp, hevs, hr⟩ |
    ⟨k1, evs1, phs, k2, evs2, e, hp, hl, hevs, hr⟩ |
    ⟨k1, evs1, phs, k2, evs2, ls, k3, evs3, e, hp, hl, hm, hevs, hr⟩ |
    ⟨k1, evs1, phs, k2, evs2, ls, k3, evs3, ms, hp, hl, hm, hevs, hr⟩
  · have hP := loadOrFetchPhotographers_events env 0 k1 evs1 (Except.error e) hp
    refine ⟨?_, ?_, ?_, ?_⟩
    · intro ps hfile
      exact Except.noConfusion (hP.2.2.1 ps hfile).2
    · intro ls hfile
      refine ⟨?_, ?_⟩
      · intro ds hds
        rw [hr] at hds
        exact Except.noConfusion hds
      · intro ev hev
        rw [hevs] at hev
        exact isApiRequestFor_false_of_other_table "location" "photographer" (by decide)
          ev (hP.2.1 ev hev)
    · intro _ ds hds
      rw [hr] at hds
      exact Except.noConfusion hds
    · intro _ ds hds
      rw [hr] at hds
      exact Except.noConfusion hds
  · have hP := loadOrFetchPhotographers_events env 0 k1 evs1 (Except.ok phs) hp
    have hL := loadOrFetchLocations_events env k1 k2 evs2 (Except.error e) hl
    refine ⟨?_, ?_, ?_, ?_⟩
    · intro ps hfile
      refine ⟨?_, ?_⟩
      · intro ds hds
        rw [hr] at hds
        exact Except.noConfusion hds
      · intro ev hev
        rw [hevs] at hev
        rcases List.mem_append.mp hev with h1 | h2
        · rw [(hP.2.2.1 ps hfile).1] at h1
          exact absurd h1 (List.not_mem_nil ev)
        · exact isApiRequestFor_false_of_other_table "photographer" "location" (by decide)
            ev (hL.2.1 ev h2)
    · intro ls hfile
      exact Except.noConfusion (hL.2.2.1 ls hfile).2
    · intro _ ds hds
      rw [hr] at hds
      exact Except.noConfusion hds
    · intro _ ds hds
      rw [hr] at hds
      exact Except.noConfusion hds
  · have hP := loadOrFetchPhotographers_events env 0 k1 evs1 (Except.ok phs) hp
    have hL := loadOrFetchLocations_events env k1 k2 evs2 (Except.ok ls) hl
    have hM := loadOrFetchMattresses_events env k2 phs ls k3 evs3 (Except.error e) hm
    refine ⟨?_, ?_, ?_, ?_⟩
    · intro ps hfile
      refine ⟨?_, ?_⟩
      · intro ds hds
        rw [hr] at hds
        exact Except.noConfusion hds
      · intro ev hev
        rw [hevs] at hev
        rcases List.mem_append.mp hev with h12 | h3
        · rcases List.mem_append.mp h12 with h1 | h2
          · rw [(hP.2.2.1 ps hfile).1] at h1
            exact absurd h1 (List.not_mem_nil ev)
          · exact isApiRequestFor_false_of_other_table "photographer" "location" (by decide)
              ev (hL.2.1 ev h2)
        · exact isApiRequestFor_false_of_other_table "photographer" "allMatresses" (by decide)
            ev (hM.2.1 ev h3)
    · intro ls2 hfile
      refine ⟨?_, ?_⟩
      · intro ds hds
        rw [hr] at hds
        exact Except.noConfusion hds
      · intro ev hev
        rw [hevs] at hev
        rcases List.mem_append.mp hev with h12 | h3
        · rcases List.mem_append.mp h12 with h1 | h2
          · exact isApiRequestFor_false_of_other_table "location" "photographer" (by decide)
              ev (hP.2.1 ev h1)
          · rw [(hL.2.2.1 ls2 hfile).1] at h2
            exact absurd h2 (List.not_mem_nil ev)
        · exact isApiRequestFor_false_of_other_table "location" "allMatresses" (by decide)
            ev (hM.2.1 ev h3)
    · intro _ ds hds
      rw [hr] at hds
      exact Except.noConfusion hds
    · intro _ ds hds
      rw [hr] at hds
      exact Except.noConfusion hds
  · have hP := loadOrFetchPhotographers_events env 0 k1 evs1 (Except.ok phs) hp
    have hL := loadOrFetchLocations_events env k1 k2 evs2 (Except.ok ls) hl
    have hM := loadOrFetchMattresses_events env k2 phs ls k3 evs3 (Except.ok ms) hm
    refine ⟨?_, ?_, ?_, ?_⟩
    · intro ps hfile
      obtain ⟨he1, hres⟩ := hP.2.2.1 ps hfile
      refine ⟨?_, ?_⟩
      · intro ds hds
        rw [hr] at hds
        injection hds with hd
        rw [← hd]
        injection hres with hps
      · intro ev hev
        rw [hevs] at hev
        rcases List.mem_append.mp hev with h123 | hw
        · rcases List.mem_append.mp h123 with h12 | h3
          · rcases List.mem_append.mp h12 with h1 | h2
            · rw [he1] at h1
              exact absurd h1 (List.not_mem_nil ev)
            · exact isApiRequestFor_false_of_other_table "photographer" "location"
                (by decide) ev (hL.2.1 ev h2)
          · exact isApiRequestFor_false_of_other_table "photographer" "allMatresses"
              (by decide) ev (hM.2.1 ev h3)
        · rw [List.mem_singleton] at hw
          rw [hw]
          rfl
    · intro ls2 hfile
      obtain ⟨he2, hres⟩ := hL.2.2.1 ls2 hfile
      refine ⟨?_, ?_⟩
      · intro ds hds
        rw [hr] at hds
        injection hds with hd
        rw [← hd]
        injection hres with hls
      · intro ev hev
        rw [hevs] at hev
        rcases List.mem_append.mp hev with h123 | hw
        · rcases List.mem_append.mp h123 with h12 | h3
          · rcases List.mem_append.mp h12 with h1 | h2
            · exact isApiRequestFor_false_of_other_table "location" "photographer"
                (by decide) ev (hP.2.1 ev h1)
            · rw [he2] at h2
              exact absurd h2 (List.not_mem_nil ev)
          · exact isApiRequestFor_false_of_other_table "location" "allMatresses"
              (by decide) ev (hM.2.1 ev h3)
        · rw [List.mem_singleton] at hw
          rw [hw]
          rfl
    · intro hnone ds hds
      obtain ⟨hex, hwrite⟩ := hP.2.2.2 hnone
      rw [hr] at hds
      injection hds with hd
      constructor
      · rcases hex with ⟨ev, hev, hv⟩
        refine ⟨ev, ?_, hv⟩
        rw [hevs]
        exact List.mem_append.mpr (Or.inl (List.mem_append.mpr
          (Or.inl (List.mem_append.mpr (Or.inl hev)))))
      · have hmem := hwrite phs rfl
        rw [← hd]
        rw [hevs]
        exact List.mem_append.mpr (Or.inl (List.mem_append.mpr
          (Or.inl (List.mem_append.mpr (Or.inl hmem)))))
    · intro hnone ds hds
      obtain ⟨hex, hwrite⟩ := hL.2.2.2 hnone
      rw [hr] at hds
      injection hds with hd
      constructor
      · rcases hex with ⟨ev, hev, hv⟩
        refine ⟨ev, ?_, hv⟩
        rw [hevs]
        exact List.mem_append.mpr (Or.inl (List.mem_append.mpr
          (Or.inl (List.mem_append.mpr (Or.inr hev)))))
      · have hmem := hwrite ls rfl
        rw [← hd]
        rw [hevs]
        exact List.mem_append.mpr (Or.inl (List.mem_append.mpr
          (Or.inl (List.mem_append.mpr (Or.inr hmem)))))

theorem c6_cached_tables_skip_fetch_witness :
    c6wStore.photographer = [⟨"p1", some "Alice"⟩] ∧
    (∀ ev ∈ c6wEvents, isApiRequestFor "photographer" ev = false) ∧
    (∃ ev ∈ c6wEvents, isApiRequestFor "location" ev = true) ∧
    MainEvent.writeJson locationJsonPath (FileContent.locations c6wStore.location) ∈
      c6wEvents := by
  have hrun : main c6wEnv = some (c6wEvents, Except.ok c6wStore) := by rfl
  have h := c6_cached_tables_skip_fetch c6wEnv c6wEvents (Except.ok c6wStore) hrun
  have h1 := h.1 [⟨"p1", some "Alice"⟩] rfl
  have h4 := h.2.2.2 rfl c6wStore rfl
  exact ⟨h1.1 c6wStore rfl, h1.2, h4.1, h4.2⟩

/-- Claim C8: on full success the orchestrator writes exactly one
combined JSON document merging all three tables (the write is
unconditional, overwriting any prior file) and the process exits with
status 0; on any unrecovered error the process exits with status 1 and
no combined-file write occurs on that run (only the per-table JSON
writes already issued remain in the trace). -/
theorem c8_exit_codes_and_combined_write (env : Env) (evs : List MainEvent)
    (r : Except Nat DataStore) (hrun : main env = some (evs, r)) :
    (∀ ds, r = Except.ok ds →
      mainExitCode env = some 0 ∧
      evs.filter isCombinedWrite =
        [MainEvent.writeJson combinedJsonPath
          (FileContent.combined ds.allMatresses ds.photographer ds.location)]) ∧
    (∀ e, r = Except.error e →
      mainExitCode env = some 1 ∧ evs.filter isCombinedWrite = []) := by
  have hfilterOf : ∀ (l : List MainEvent), (∀ ev ∈ l, isCombinedWrite ev = false) →
      l.filter isCombinedWrite = [] := by
    intro l hl
    rw [List.filter_eq_nil_iff]
    intro a ha
    simp [hl a ha]
  rcases main_cases env evs r hrun with
    ⟨k1, evs1, e, hp, hevs, hr⟩ |
    ⟨k1, evs1, phs, k2, evs2, e, hp, hl, hevs, hr⟩ |
    ⟨k1, evs1, phs, k2, evs2, ls, k3, evs3, e, hp, hl, hm, hevs, hr⟩ |
    ⟨k1, evs1, phs, k2, evs2, ls, k3, evs3, ms, hp, hl, hm, hevs, hr⟩
  · have hP := loadOrFetchPhotographers_events env 0 k1 evs1 (Except.error e) hp
    subst hr
    refine ⟨?_, ?_⟩
    · intro ds hds
      exact Except.noConfusion hds
    · intro e2 he2
      refine ⟨?_, ?_⟩
      · unfold mainExitCode
        rw [hrun]
      · rw [hevs]
        exact hfilterOf evs1 hP.1
  · have hP := loadOrFetchPhotographers_events env 0 k1 evs1 (Except.ok phs) hp
    have hL := loadOrFetchLocations_events env k1 k2 evs2 (Except.error e) hl
    subst hr
    refine ⟨?_, ?_⟩
    · intro ds hds
      exact Except.noConfusion hds
    · intro e2 he2
      refine ⟨?_, ?_⟩
      · unfold mainExitCode
        rw [hrun]
      · rw [hevs, List.filter_append, hfilterOf evs1 hP.1, hfilterOf evs2 hL.1]
        rfl
  · have hP := loadOrFetchPhotographers_events env 0 k1 evs1 (Except.ok phs) hp
    have hL := loadOrFetchLocations_events env k1 k2 evs2 (Except.ok ls) hl
    have hM := loadOrFetchMattresses_events env k2 phs ls k3 evs3 (Except.error e) hm
    subst hr
    refine ⟨?_, ?_⟩
    · intro ds hds
      exact Except.noConfusion hds
    · intro e2 he2
      refine ⟨?_, ?_⟩
      · unfold mainExitCode
        rw [hrun]
      · rw [hevs, List.filter_append, List.filter_append,
          hfilterOf evs1 hP.1, hfilterOf evs2 hL.1, hfilterOf evs3 hM.1]
        rfl
  · have hP := loadOrFetchPhotographers_events env 0 k1 evs1 (Except.ok phs) hp
    have hL := loadOrFetchLocations_events env k1 k2 evs2 (Except.ok ls) hl
    have hM := loadOrFetchMattresses_events env k2 phs ls k3 evs3 (Except.ok ms) hm
    subst hr
    refine ⟨?_, ?_⟩
    · intro ds hds
      injection hds with hd
      subst hd
      refine ⟨?_, ?_⟩
      · unfold mainExitCode
        rw [hrun]
      · rw [hevs, List.filter_append, List.filter_append, List.filter_append,
          hfilterOf evs1 hP.1, hfilterOf evs2 hL.1, hfilterOf evs3 hM.1]
        rfl
    · intro e2 he2
      exact Except.noConfusion he2

theorem c8_exit_codes_and_combined_write_witness :
    mainExitCode c8wEnvOk = some 0 ∧
    ([MainEvent.writeJson combinedJsonPath
        (FileContent.combined [] [] [])].filter isCombinedWrite =
      [MainEvent.writeJson combinedJsonPath (FileContent.combined [] [] [])]) ∧
    mainExitCode c8wEnvErr = some 1 ∧
    ([MainEvent.apiRequest (mkAirtableRequest "photographer" none none)].filter
        isCombinedWrite = []) := by
  have hok := (c8_exit_codes_and_combined_write c8wEnvOk
      [MainEvent.writeJson combinedJsonPath (FileContent.combined [] [] [])]
      (Except.ok ⟨[], [], []⟩) (by rfl)).1 ⟨[], [], []⟩ rfl
  have herr := (c8_exit_codes_and_combined_write c8wEnvErr
      [MainEvent.apiRequest (mkAirtableRequest "photographer" none none)]
      (Except.error 500) (by rfl)).2 500 rfl
  exact ⟨hok.1, hok.2, herr.1, herr.2⟩

/-- Claim C10: when the cached mattress JSON exists, the
re-materialization pass discards the Image Materializer's return value:
whatever the download and filesystem oracles did, the in-memory
mattress records in the final data store (and in the combined output
write) are exactly the cached file's contents. -/
theorem c10_cached_mattresses_ignore_materializer (env : Env) (ms : List Mattress)
    (evs : List MainEvent) (r : Except Nat DataStore)
    (hms : env.mattressesFile = some ms) (hrun : main env = some (evs, r)) :
    ∀ ds, r = Except.ok ds →
      ds.allMatresses = ms ∧
      MainEvent.writeJson combinedJsonPath
        (FileContent.combined ms ds.photographer ds.location) ∈ evs := by
  rcases main_cases env evs r hrun with
    ⟨k1, evs1, e, hp, hevs, hr⟩ |
    ⟨k1, evs1, phs, k2, evs2, e, hp, hl, hevs, hr⟩ |
    ⟨k1, evs1, phs, k2, evs2, ls, k3, evs3, e, hp, hl, hm, hevs, hr⟩ |
    ⟨k1, evs1, phs, k2, evs2, ls, k3, evs3, msD, hp, hl, hm, hevs, hr⟩
  · intro ds hds
    rw [hr] at hds
    exact Except.noConfusion hds
  · intro ds hds
    rw [hr] at hds
    exact Except.noConfusion hds
  · intro ds hds
    rw [hr] at hds
    exact Except.noConfusion hds
  · intro ds hds
    rw [hr] at hds
    injection hds with hd
    subst hd
    have hM := loadOrFetchMattresses_events env k2 phs ls k3 evs3 (Except.ok msD) hm
    have heq := hM.2.2 ms hms
    injection heq with he
    subst he
    refine ⟨rfl, ?_⟩
    rw [hevs]
    exact List.mem_append.mpr (Or.inr (List.mem_singleton.mpr rfl))

theorem c10_cached_mattresses_ignore_materializer_witness :
    (⟨[c7wMattress], [], []⟩ : DataStore).allMatresses = [c7wMattress] ∧
    MainEvent.writeJson combinedJsonPath
      (FileContent.combined [c7wMattress] [] []) ∈
      [MainEvent.writeJson combinedJsonPath (FileContent.combined [c7wMattress] [] [])] :=
  c10_cached_mattresses_ignore_materializer c10wEnv [c7wMattress]
    [MainEvent.writeJson combinedJsonPath (FileContent.combined [c7wMattress] [] [])]
    (Except.ok ⟨[c7wMattress], [], []⟩) rfl (by rfl) ⟨[c7wMattress], [], []⟩ rfl

theorem finalImageState_good (fs : FS) (net : Net) (recordId : String) (j : Nat)
    (image : ImageAttachment)
    (hdl : net.download image.url (imageLocalPath recordId j) = true)
    (hfa : Int.natAbs ((net.downloadedSize image.url : Int) - (image.size : Int)) * 100 <
      image.size) :
    ∃ s, finalImageState fs net recordId j image = FileState.present (some s) ∧
      Int.natAbs ((s : Int) - (image.size : Int)) * 100 < image.size := by
  unfold finalImageState
  cases hsd : shouldDownloadImage fs (imageLocalPath recordId j) image.size with
  | true =>
    refine ⟨net.downloadedSize image.url, ?_, hfa⟩
    simp [hdl]
  | false =>
    unfold shouldDownloadImage at hsd
    cases hex : fs.fileExists (imageLocalPath recordId j) with
    | false =>
      rw [hex] at hsd
      simp at hsd
    | true =>
      rw [hex] at hsd
      simp only [if_true] at hsd
      cases hstat : fs.statSize (imageLocalPath recordId j) with
      | error e =>
        rw [hstat] at hsd
        dsimp only at hsd
        exact Bool.noConfusion hsd
      | ok s =>
        rw [hstat] at hsd
        dsimp only at hsd
        have hclose : sizeCloseEnough s image.size = true := by
          cases hcb : sizeCloseEnough s image.size with
          | true => rfl
          | false =>
            rw [hcb] at hsd
            exact Bool.noConfusion hsd
        refine ⟨s, ?_, (sizeCloseEnough_true_iff s image.size).mp hclose⟩
        simp only [Bool.false_eq_true, if_false]
        unfold initialImageState
        rw [hex, hstat]
        rfl

/-- Counterexample to claim C7 as stated: with a cached mattress file
holding one descriptor of declared size 100, a pre-existing local file
of 200 bytes (a 100% size mismatch), and a failing re-download, the
pipeline still completes with exit code 0 and the descriptor still in
the produced dataset, while the file at the descriptor's path is
present with a byte size not within 1% of the declared size. -/
theorem c7_invariant_counterexample :
    mainExitCode c7xEnv = some 0 ∧
    main c7xEnv = some (c7xEvents, Except.ok c7xStore) ∧
    c7xStore.allMatresses = [c7xMattress] ∧
    c7xMattress.images[0]? = some c7xDescriptor ∧
    c7xDescriptor.path = imageRelPath "rec1" 0 ∧
    finalImageState c7xEnv.fs c7xEnv.net "rec1" 0 (descriptorToAttachment c7xDescriptor) =
      FileState.present (some 200) ∧
    ¬(Int.natAbs ((200 : Int) - (c7xDescriptor.size : Int)) * 100 < c7xDescriptor.size) := by
  refine ⟨by rfl, by rfl, rfl, rfl, by decide, by rfl, by decide⟩

/-- Claim C7, amended: after the pipeline completes successfully, every
image descriptor in the produced dataset points (at its position's
local path) to a present file whose byte size is within 1% of the
declared size — provided every attempted download succeeds, every
download writes content whose size is within 1% of the descriptor's
declared size, and cached descriptors record the paths this program
generates.  Without the download-success proviso the invariant fails
(see the counterexample): a failed re-download can leave a present
stale file whose size is off by more than 1% while the run still
completes; when the file is absent a (re)fetch was attempted, but the
present-file half of the invariant is not re-established. -/
theorem c7_image_size_invariant_amended (env : Env) (evs : List MainEvent)
    (ds : DataStore) (hrun : main env = some (evs, Except.ok ds))
    (hdl : ∀ url filename, env.net.download url filename = true)
    (hfaith : ∀ m ∈ ds.allMatresses, ∀ d ∈ m.images,
      Int.natAbs ((env.net.downloadedSize d.url : Int) - (d.size : Int)) * 100 < d.size)
    (hcache : ∀ ms, env.mattressesFile = some ms →
      ∀ m ∈ ms, ∀ (i : Nat) (d : ImageDescriptor), m.images[i]? = some d →
        d.path = imageRelPath m.id i) :
    ∀ m ∈ ds.allMatresses, ∀ (i : Nat) (d : ImageDescriptor), m.images[i]? = some d →
      ∃ j s, d.path = imageRelPath m.id j ∧
        finalImageState env.fs env.net m.id j (descriptorToAttachment d) =
          FileState.present (some s) ∧
        Int.natAbs ((s : Int) - (d.size : Int)) * 100 < d.size := by
  rcases main_cases env evs (Except.ok ds) hrun with
    ⟨k1, evs1, e, hp, hevs, hr⟩ |
    ⟨k1, evs1, phs, k2, evs2, e, hp, hl, hevs, hr⟩ |
    ⟨k1, evs1, phs, k2, evs2, ls, k3, evs3, e, hp, hl, hm, hevs, hr⟩ |
    ⟨k1, evs1, phs, k2, evs2, ls, k3, evs3, msD, hp, hl, hm, hevs, hr⟩
  · exact Except.noConfusion hr
  · exact Except.noConfusion hr
  · exact Except.noConfusion hr
  · injection hr with hd
    subst hd
    cases hmf : env.mattressesFile with
    | some ms =>
      have hM := loadOrFetchMattresses_events env k2 phs ls k3 evs3 (Except.ok msD) hm
      have heq := hM.2.2 ms hmf
      injection heq with he
      subst he
      intro m hmem i d hd
      have hdin : d ∈ m.images := List.getElem?_mem hd
      have hpath := hcache msD hmf m hmem i d hd
      obtain ⟨s, hstate, hsize⟩ := finalImageState_good env.fs env.net m.id i
        (descriptorToAttachment d) (hdl d.url (imageLocalPath m.id i))
        (hfaith m hmem d hdin)
      exact ⟨i, s, hpath, hstate, hsize⟩
    | none =>
      unfold loadOrFetchMattresses at hm
      rw [hmf] at hm
      dsimp only at hm
      unfold fetchMattresses at hm
      cases hfr : fetchAirtableRecords env.api env.fuel k2 "allMatresses" none none with
      | none =>
        rw [hfr] at hm
        exact Option.noConfusion hm
      | some x =>
        obtain ⟨kx, fevs, fres⟩ := x
        rw [hfr] at hm
        cases fres with
        | error e =>
          dsimp only at hm
          injection hm with h1
          injection h1 with ha hb
          injection hb with hc hd2
          exact Except.noConfusion hd2
        | ok records =>
          dsimp only at hm
          injection hm with h1
          injection h1 with ha hb
          injection hb with hc hd2
          injection hd2 with hms
          subst hms
          intro m hmem i d hd
          rcases List.mem_map.mp hmem with ⟨record, hrec, hbuild⟩
          subst hbuild
          have hdin : d ∈ (buildMattress phs ls record
              (processImages env.fs env.net record.id
                (record.fields.images.getD [])).2).images := List.getElem?_mem hd
          have hdin2 : d ∈ (processImages env.fs env.net record.id
              (record.fields.images.getD [])).2 := hdin
          rcases List.mem_filterMap.mp hdin2 with ⟨pr, hpr, hsnd⟩
          rcases List.mem_map.mp hpr with ⟨⟨j, image⟩, henum, hpr2⟩
          rw [← hpr2] at hsnd
          rw [processOneImage_snd] at hsnd
          by_cases hcond : (shouldDownloadImage env.fs (imageLocalPath record.id j)
              image.size && !env.net.download image.url (imageLocalPath record.id j)) = true
          · rw [if_pos hcond] at hsnd
            exact Option.noConfusion hsnd
          · rw [if_neg hcond] at hsnd
            injection hsnd with hdd
            subst hdd
            obtain ⟨s, hstate, hsize⟩ := finalImageState_good env.fs env.net record.id j
              image (hdl image.url (imageLocalPath record.id j))
              (hfaith (buildMattress phs ls record
                  (processImages env.fs env.net record.id
                    (record.fields.images.getD [])).2)
                hmem (mkImageDescriptor record.id j image) hdin)
            exact ⟨j, s, rfl, hstate, hsize⟩

theorem c7_image_size_invariant_amended_witness :
    ∃ j s, c7wDescriptor.path = imageRelPath "recW" j ∧
      finalImageState c7wEnv.fs c7wEnv.net "recW" j (descriptorToAttachment c7wDescriptor) =
        FileState.present (some s) ∧
      Int.natAbs ((s : Int) - (c7wDescriptor.size : Int)) * 100 < c7wDescriptor.size := by
  have h := c7_image_size_invariant_amended c7wEnv
    [MainEvent.imgRequest "http://img/w" "data/images/recW/1.jpg",
     MainEvent.writeJson combinedJsonPath (FileContent.combined [c7wMattress] [] [])]
    c7wStore (by rfl) (fun _ _ => rfl)
    (by
      intro m hm d hdim
      replace hm : m = c7wMattress := by simpa [c7wStore] using hm
      subst hm
      replace hdim : d = c7wDescriptor := by simpa [c7wMattress] using hdim
      subst hdim
      decide)
    (by
      intro ms hms m hm i d hd
      injection hms with he
      subst he
      rw [List.mem_singleton] at hm
      subst hm
      cases i with
      | zero =>
        injection hd with hdd
        subst hdd
        decide
      | succ n => exact Option.noConfusion hd)
  exact h c7wMattress (List.mem_singleton.mpr rfl) 0 c7wDescriptor rfl

end MattressDownload
